/-
Verification of the chihiros dosing-pump frame codec and decoder pipeline.

Shallow embedding of the Python sources
  custom_components/chihiros/chihiros_doser_control/protocol.py
  custom_components/chihiros/chihiros_doser_control/dosingcommands.py
  custom_components/chihiros/chihiros_doser_control/device/doser_device.py

Modelling conventions:
  * Python ints are ℤ (caller-supplied values) or ℕ (values already known
    to be byte-ranged); `& 0xFF` on a nonnegative value is `% 256`,
    `& 0xFF` on a possibly negative Python int is `Int.emod · 256`,
    `& 0x7F` is `% 128`.
  * `decimal.Decimal` arithmetic is exact and is modelled by ℚ.
    `Decimal.quantize(Decimal("0.1"), ROUND_HALF_UP)` rounds half away
    from zero; Python's `round(x, 1)` rounds half to even.  Floats are
    modelled as exact rationals (on the one-decimal values produced by
    this code the float error, ~1e-12, never crosses a rounding
    boundary, so the rational model agrees with CPython).
  * Code that raises an exception is modelled with `Option` (`none` =
    the Python call raises); `bytes([...])` / `bytearray([...])` raise
    for any element outside 0..255, which is modelled by the explicit
    range guards.
  * The process-global message-id of protocol.py (`_last_msg_id`,
    `_next_msg_id`) is modelled by threading the state explicitly.
-/
import Mathlib

namespace Chihiros

/-! ## Decimal rounding helpers -/

/-- `ROUND_HALF_UP` to an integer: round half away from zero
(`Decimal.to_integral_value(rounding=ROUND_HALF_UP)`). -/
def intHalfUp (x : ℚ) : ℤ :=
  if 0 ≤ x then ⌊x + 1/2⌋ else -⌊-x + 1/2⌋

/-- `Decimal.quantize(Decimal("0.1"), rounding=ROUND_HALF_UP)`. -/
def quantize1 (x : ℚ) : ℚ := (intHalfUp (x * 10) : ℚ) / 10

/-- Python `round(x, 1)`: round to one decimal, ties to even. -/
def pyRound1 (x : ℚ) : ℚ :=
  let y := x * 10
  let f := ⌊y⌋
  let r := y - f
  let n : ℤ :=
    if r < 1/2 then f
    else if 1/2 < r then f + 1
    else if f % 2 = 0 then f else f + 1
  (n : ℚ) / 10

/-! ## DoseQuantity: protocol._split_ml_25_6 and protocol.ml_from_25_6 -/

/-- `protocol._split_ml_25_6`: quantize the requested ml to one decimal
(half-up), reject outside 0.2..999.9, then split into 25.6 mL buckets
plus a 0.1 mL remainder; `none` models the `ValueError`. -/
def split_ml_25_6 (ml : ℚ) : Option (ℕ × ℕ) :=
  let q := quantize1 ml
  if q < 2/10 ∨ q > 9999/10 then none
  else
    let hi : ℤ := ⌊q / (25.6 : ℚ)⌋
    let rem : ℚ := quantize1 (q - (hi : ℚ) * (25.6 : ℚ))
    let lo : ℤ := intHalfUp (rem * 10)
    let hl : ℤ × ℤ := if lo = 256 then (hi + 1, 0) else (hi, lo)
    some ((Int.emod hl.1 256).toNat, (Int.emod hl.2 256).toNat)

/-- `protocol.ml_from_25_6`: `round(25.6 * hi_buckets + 0.1 * tenths_remainder, 1)`. -/
def ml_from_25_6 (hi_buckets tenths_remainder : ℕ) : ℚ :=
  pyRound1 ((25.6 : ℚ) * hi_buckets + (0.1 : ℚ) * tenths_remainder)

/-! ## WeekdayMask: doser_device.encode_selected_weekdays, protocol.decode_weekdays -/

/-- `doser_device.WeekdaySelect`. -/
inductive WeekdaySelect
  | monday | tuesday | wednesday | thursday | friday | saturday | sunday | everyday
deriving DecidableEq, Repr

/-- The enum value of each `WeekdaySelect` member. -/
def WeekdaySelect.value : WeekdaySelect → ℕ
  | .monday => 64
  | .tuesday => 32
  | .wednesday => 16
  | .thursday => 8
  | .friday => 4
  | .saturday => 2
  | .sunday => 1
  | .everyday => 127

/-- `doser_device.encode_selected_weekdays` (the str-coercion fallback arm
for non-enum inputs is outside this typed embedding). -/
def encode_selected_weekdays (days : List WeekdaySelect) : ℕ :=
  if days = [] then 0
  else if WeekdaySelect.everyday ∈ days then WeekdaySelect.everyday.value
  else (days.foldl (fun m d => m ||| d.value) 0) % 128

/-- `protocol.WEEKDAY_BITS` (insertion order of the Python dict). -/
def WEEKDAY_BITS : List (ℕ × String) :=
  [(64, "monday"), (32, "tuesday"), (16, "wednesday"), (8, "thursday"),
   (4, "friday"), (2, "saturday"), (1, "sunday")]

/-- `protocol.decode_weekdays`. -/
def decode_weekdays (mask : ℕ) : List String :=
  if mask = 127 then ["everyday"]
  else (WEEKDAY_BITS.filter (fun p => mask &&& p.1 != 0)).map Prod.snd

/-! ## Checksum, parameter sanitizing, message-id

`dosingcommands._xor_checksum` and `protocol._xor_checksum` have the same
body; `dosingcommands._bump_msg_id`, `dosingcommands.next_message_id` and
`protocol._next_msg_id` perform the identical four-step increment, so it
is shared here as `_bump_msg_id`. -/

/-- XOR of bytes 1..end of the buffer, masked to a byte
(`_xor_checksum`; the dosingcommands copy returns 0 for length < 2). -/
def _xor_checksum (buf : List ℕ) : ℕ :=
  match buf with
  | _ :: c :: rest => (rest.foldl (· ^^^ ·) c) % 256
  | _ => 0

/-- `dosingcommands._clamp_byte`: `none` models the raised
`ValueError` for a value outside 0..255. -/
def _clamp_byte (v : ℤ) : Option ℤ :=
  if v < 0 ∨ v > 255 then none else some v

/-- `protocol._sanitize_params`: mask each parameter to a byte and remap
the sentinel 0x5A (90) to 0x59 (89); never raises. -/
def sanitize_params_protocol (params : List ℤ) : List ℕ :=
  params.map (fun p =>
    let b := (Int.emod p 256).toNat
    if b = 90 then 89 else b)

/-- `dosingcommands._sanitize_params`: clamp (raising on out-of-range)
then remap 0x5A to 0x59. -/
def sanitize_params_dosing : List ℤ → Option (List ℕ)
  | [] => some []
  | p :: rest =>
    match _clamp_byte p with
    | none => none
    | some b =>
      match sanitize_params_dosing rest with
      | none => none
      | some bs => some ((if b = 90 then (89 : ℕ) else b.toNat) :: bs)

/-- The shared message-id increment: bump the low byte, skipping 0x5A;
on wrap to 0, bump the high byte, skipping 0x5A. -/
def _bump_msg_id (p : ℕ × ℕ) : ℕ × ℕ :=
  let lo := (p.2 + 1) % 256
  let lo := if lo = 90 then (lo + 1) % 256 else lo
  if lo = 0 then
    let hi := (p.1 + 1) % 256
    let hi := if hi = 90 then (hi + 1) % 256 else hi
    (hi, lo)
  else (p.1, lo)

/-- `dosingcommands.next_message_id`: `none` starts from (0, 0); a given
pair is first masked to bytes, then incremented as in `_bump_msg_id`
(the function body is that same increment). -/
def next_message_id (current : Option (ℤ × ℤ)) : ℕ × ℕ :=
  match current with
  | none => _bump_msg_id (0, 0)
  | some c => _bump_msg_id ((Int.emod c.1 256).toNat, (Int.emod c.2 256).toNat)

/-! ## Frame builders -/

/-- The frame body shared by both families:
`[cmd, 0x01, len(params)+K, msg_hi, msg_lo, mode, *params]`. -/
def frame_body (cmd K mode : ℕ) (p : ℕ × ℕ) (ps : List ℕ) : List ℕ :=
  cmd :: 1 :: (ps.length + K) :: p.1 :: p.2 :: mode :: ps

/-- The retry loop of `dosingcommands._create_command_encoding_dosing_pump`:
try the current msg-id; if the checksum is 0x5A bump the id and retry, up
to `fuel` attempts in total; the final attempt is returned even when its
checksum is still 0x5A (the Python "last resort"). -/
def build_loop (cmd K mode : ℕ) (ps : List ℕ) : ℕ → ℕ × ℕ → List ℕ
  | 0, p => frame_body cmd K mode p ps ++ [_xor_checksum (frame_body cmd K mode p ps)]
  | fuel + 1, p =>
    let body := frame_body cmd K mode p ps
    let chk := _xor_checksum body
    if chk ≠ 90 ∨ fuel = 0 then body ++ [chk]
    else build_loop cmd K mode ps fuel (_bump_msg_id p)

/-- `dosingcommands._create_command_encoding_dosing_pump`: clamp cmd,
mode and both msg-id bytes, sanitize the parameters (raising on
out-of-range bytes), reject an over-long frame (the `bytearray` call
would raise on a length byte > 255), then run the retry loop 8 times. -/
def _create_command_encoding_dosing_pump (cmd_id cmd_mode : ℤ)
    (msg_id : ℤ × ℤ) (parameters : List ℤ) : Option (List ℕ) :=
  match _clamp_byte cmd_id with
  | none => none
  | some c =>
  match _clamp_byte cmd_mode with
  | none => none
  | some m =>
  match _clamp_byte msg_id.1 with
  | none => none
  | some mh =>
  match _clamp_byte msg_id.2 with
  | none => none
  | some ml =>
  match sanitize_params_dosing parameters with
  | none => none
  | some ps =>
    if ps.length + 5 > 255 then none
    else some (build_loop c.toNat 5 m.toNat ps 8 (mh.toNat, ml.toNat))

/-- The retry loop of `protocol._encode` / `protocol.encode_5b`: each
attempt first advances the global msg-id (`_next_msg_id`) and uses the
new value; returns the frame and the final msg-id state. -/
def protocol_loop (cmd K mode : ℕ) (ps : List ℕ) : ℕ → ℕ × ℕ → List ℕ × (ℕ × ℕ)
  | 0, st =>
    let p := _bump_msg_id st
    let body := frame_body cmd K mode p ps
    (body ++ [_xor_checksum body], p)
  | fuel + 1, st =>
    let p := _bump_msg_id st
    let body := frame_body cmd K mode p ps
    let chk := _xor_checksum body
    if chk ≠ 90 ∨ fuel = 0 then (body ++ [chk], p)
    else (protocol_loop cmd K mode ps fuel p)

/-- `protocol._encode` (A5-style, K = 5), with the global `_last_msg_id`
threaded as `st`; `none` models the `bytes` constructor raising on a
cmd, mode or length byte outside 0..255. -/
def protocol_encode (cmd mode : ℤ) (params : List ℤ) (st : ℕ × ℕ) :
    Option (List ℕ × (ℕ × ℕ)) :=
  let ps := sanitize_params_protocol params
  if cmd < 0 ∨ cmd > 255 ∨ mode < 0 ∨ mode > 255 ∨ ps.length + 5 > 255 then none
  else some (protocol_loop cmd.toNat 5 mode.toNat ps 8 st)

/-- `protocol.encode_5b` (0x5B-style, K = 2). -/
def encode_5b (mode : ℤ) (params : List ℤ) (st : ℕ × ℕ) :
    Option (List ℕ × (ℕ × ℕ)) :=
  let ps := sanitize_params_protocol params
  if mode < 0 ∨ mode > 255 ∨ ps.length + 2 > 255 then none
  else some (protocol_loop 91 2 mode.toNat ps 8 st)

/-! ## Totals parsing (protocol.py, 0x5B frames) -/

/-- `protocol._looks_like_totals_pairs`: exactly 8 bytes forming four
(hi, lo) pairs with 0 ≤ hi ≤ 10 and 0 ≤ lo ≤ 255. -/
def _looks_like_totals_pairs : List ℕ → Bool
  | [h1, l1, h2, l2, h3, l3, h4, l4] =>
    decide (h1 ≤ 10) && decide (l1 ≤ 255) && decide (h2 ≤ 10) && decide (l2 ≤ 255) &&
    decide (h3 ≤ 10) && decide (l3 ≤ 255) && decide (h4 ≤ 10) && decide (l4 ≤ 255)
  | _ => false

/-- `protocol._decode_totals_pairs`: `round(hi*25.6 + lo/10.0, 1)` for
each of the four channel pairs (only ever called on 8-byte windows; any
other shape yields `[]`, unreachable from `parse_totals_frame`). -/
def _decode_totals_pairs : List ℕ → List ℚ
  | [h1, l1, h2, l2, h3, l3, h4, l4] =>
    [pyRound1 ((h1 : ℚ) * (25.6 : ℚ) + (l1 : ℚ) / 10),
     pyRound1 ((h2 : ℚ) * (25.6 : ℚ) + (l2 : ℚ) / 10),
     pyRound1 ((h3 : ℚ) * (25.6 : ℚ) + (l3 : ℚ) / 10),
     pyRound1 ((h4 : ℚ) * (25.6 : ℚ) + (l4 : ℚ) / 10)]
  | _ => []

/-- The scan `for i in range(0, len(params) - 8 + 1)` of
`protocol.parse_totals_frame`: first contiguous 8-byte window passing
the plausibility filter. -/
def _first_totals_window : List ℕ → Option (List ℕ)
  | [] => none
  | x :: t =>
    if (x :: t).length < 8 then none
    else if _looks_like_totals_pairs ((x :: t).take 8) then some ((x :: t).take 8)
    else _first_totals_window t

/-- `protocol.parse_totals_frame`: require a 0x5B-prefixed payload of at
least 15 bytes, take `payload[6:-1]` as the parameter window, decode it
directly when it is exactly 8 plausible bytes, otherwise scan for the
first plausible 8-byte window. -/
def parse_totals_frame (payload : List ℕ) : Option (List ℚ) :=
  if payload.length < 15 then none
  else if payload.head? ≠ some 91 then none
  else
    let params := ((payload.drop 6).dropLast)
    if params.length = 8 ∧ _looks_like_totals_pairs params then
      some (_decode_totals_pairs params)
    else if 8 ≤ params.length then
      (_first_totals_window params).map _decode_totals_pairs
    else none

/-! ## Frame decoders (protocol.py, tolerant) -/

/-- The decoded-event dictionaries of protocol.py as a tagged union.
The two `dose_entry` shapes are distinct constructors because the weekly
variant carries `enabled`/`time_hour`/`time_minute` keys and the legacy
variant does not (and carries `raw_aux` plus an optional warning). -/
inductive DecodedEvent
  | time_set (year month day_or_week_index hour minute second : ℕ)
  | activate (channel : ℕ) (enabled : Bool)
  | manual_dose (channel : ℕ) (amount_ml : ℚ) (raw : List ℕ)
  | dose_entry_weekly (channel weekdays_mask : ℕ) (weekdays : List String)
      (enabled : Bool) (time_hour time_minute : ℕ) (amount_ml : ℚ)
  | dose_entry_legacy (channel weekdays_mask : ℕ) (weekdays : List String)
      (amount_ml : ℚ) (raw_aux : List ℕ) (warning : Bool)
  | timer (channel timer_type start_hour start_minute : ℕ) (warning : Bool)
  | unknown_27 (params : List ℕ)
  | control (cmd mode : ℕ) (params : List ℕ)
  | unknown (cmd mode : ℕ) (params : List ℕ)
deriving DecidableEq, Repr

/-- `protocol._dose27_is_manual`: 5 or 6 bytes ending in a plausible
(hi, lo) pair, with the two bytes after the channel equal to zero. -/
def _dose27_is_manual : List ℕ → Bool
  | [_, a, b, hi, lo] => (a == 0) && (b == 0) && decide (hi ≤ 10) && decide (lo ≤ 255)
  | [_, a, b, _, hi, lo] => (a == 0) && (b == 0) && decide (hi ≤ 10) && decide (lo ≤ 255)
  | _ => false

/-- `protocol._dose27_is_weekly`: `[ch, mask, enable, HH, MM, dose_x10]`. -/
def _dose27_is_weekly : List ℕ → Bool
  | [_, mask, en, HH, MM, dose10] =>
    decide (mask ≤ 127) && (en == 0 || en == 1) && decide (HH ≤ 23) &&
    decide (MM ≤ 59) && decide (dose10 ≤ 255)
  | _ => false

/-- `protocol.decode_time_90_9` (the non-6-byte arm is unreachable under
`parse_frame`'s length guard; in Python it would raise). -/
def decode_time_90_9 : List ℕ → DecodedEvent
  | [yy, mm, idx, HH, MM, SS] => .time_set (2000 + yy) mm idx HH MM SS
  | l => .unknown 90 9 l

/-- `protocol.decode_activate_165_32` (non-3-byte arm unreachable). -/
def decode_activate_165_32 : List ℕ → DecodedEvent
  | [ch, _, enable] => .activate ch (enable != 0)
  | l => .unknown 165 32 l

/-- `protocol.decode_dose_165_27`: manual-dose variants first, then the
weekly schedule shape, then the legacy 6-field layout (flagging an
implausible mL value), else `unknown_27`. -/
def decode_dose_165_27 (params : List ℕ) : DecodedEvent :=
  if _dose27_is_manual params then
    match params with
    | [ch, _, _, hi, tenths] => .manual_dose ch (ml_from_25_6 hi tenths) params
    | [ch, _, _, _, hi, tenths] => .manual_dose ch (ml_from_25_6 hi tenths) params
    | l => .unknown_27 l
  else if _dose27_is_weekly params then
    match params with
    | [ch, mask, enable, HH, MM, dose10] =>
      .dose_entry_weekly ch mask (decode_weekdays mask) (enable != 0) HH MM
        (pyRound1 ((dose10 : ℚ) / 10))
    | l => .unknown_27 l
  else
    match params with
    | [ch, mask, c1, c2, hi, tenths] =>
      let ml := ml_from_25_6 hi tenths
      .dose_entry_legacy ch mask (decode_weekdays mask) ml [c1, c2]
        (¬((0.2 : ℚ) ≤ ml ∧ ml ≤ (99999.0 : ℚ)) : Bool)
    | l => .unknown_27 l

/-- `protocol.decode_timer_165_21` (non-6-byte arm unreachable). -/
def decode_timer_165_21 : List ℕ → DecodedEvent
  | [ch, t_or_en, hh, mm, _, _] => .timer ch t_or_en hh mm (¬(mm ≤ 59) : Bool)
  | l => .unknown 165 21 l

/-- `protocol.parse_frame`: classify by `(cmd_id, mode, len(params))`. -/
def parse_frame (cmd_id mode : ℕ) (params : List ℕ) : DecodedEvent :=
  if cmd_id = 90 ∧ mode = 9 ∧ params.length = 6 then
    decode_time_90_9 params
  else if cmd_id = 165 ∧ mode = 32 ∧ params.length = 3 then
    decode_activate_165_32 params
  else if cmd_id = 165 ∧ mode = 27 ∧ (params.length = 5 ∨ params.length = 6) then
    decode_dose_165_27 params
  else if cmd_id = 165 ∧ mode = 21 ∧ params.length = 6 then
    decode_timer_165_21 params
  else if (cmd_id = 90 ∧ mode = 4) ∨ (cmd_id = 165 ∧ mode = 4) then
    .control cmd_id mode params
  else .unknown cmd_id mode params

/-- `protocol.decode_records`: map `parse_frame` over the records. -/
def decode_records (records : List (ℕ × ℕ × List ℕ)) : List DecodedEvent :=
  records.map (fun r => parse_frame r.1 r.2.1 r.2.2)

/-! ## State builder (protocol.py dataclasses) -/

/-- `protocol.TimerState`. -/
structure TimerState where
  timer_type : Option ℕ := none
  start_hour : Option ℕ := none
  start_minute : Option ℕ := none
deriving DecidableEq, Repr

/-- `protocol.ChannelState`. -/
structure ChannelState where
  channel : ℕ
  enabled : Option Bool := none
  amount_ml : Option ℚ := none
  weekdays_mask : Option ℕ := none
  weekdays : List String := []
  time_hour : Option ℕ := none
  time_minute : Option ℕ := none
  timer : TimerState := {}
deriving DecidableEq, Repr

/-- `protocol.ChannelState.merge`: fold one decoded event into the
accumulated channel state.  Every key the event carries overwrites the
stored field, except that a `dose_entry`'s `enabled` key is applied only
when `self.enabled is None`. -/
def ChannelState.merge (st : ChannelState) (ev : DecodedEvent) : ChannelState :=
  match ev with
  | .activate _ en => { st with enabled := some en }
  | .dose_entry_weekly _ mask wd en hh mm ml =>
    { st with
      amount_ml := some ml
      weekdays_mask := some mask
      weekdays := wd
      time_hour := some hh
      time_minute := some mm
      enabled := if st.enabled = none then some en else st.enabled }
  | .dose_entry_legacy _ mask wd ml _ _ =>
    { st with
      amount_ml := some ml
      weekdays_mask := some mask
      weekdays := wd }
  | .manual_dose _ ml _ => { st with amount_ml := some ml }
  | .timer _ tt hh mm _ =>
    { st with timer := { timer_type := some tt, start_hour := some hh, start_minute := some mm } }
  | _ => st

/-- `protocol.DeviceState`; the Python `channels` dict is modelled as a
map from channel index to an optional channel state. -/
structure DeviceState where
  device_time : Option DecodedEvent := none
  channels : ℕ → Option ChannelState := fun _ => none
  other_events : List DecodedEvent := []

/-- The channel index of the events `build_device_state` routes to a
channel (`{"activate", "dose_entry", "manual_dose", "timer"}`). -/
def eventChannel? : DecodedEvent → Option ℕ
  | .activate ch _ => some ch
  | .dose_entry_weekly ch _ _ _ _ _ _ => some ch
  | .dose_entry_legacy ch _ _ _ _ _ => some ch
  | .manual_dose ch _ _ => some ch
  | .timer ch _ _ _ _ => some ch
  | _ => none

/-- Whether an event is a `time_set` event. -/
def DecodedEvent.isTimeSet : DecodedEvent → Bool
  | .time_set _ _ _ _ _ _ => true
  | _ => false

/-- One step of the `build_device_state` loop. -/
def build_step (ds : DeviceState) (ev : DecodedEvent) : DeviceState :=
  if ev.isTimeSet then { ds with device_time := some ev }
  else
    match eventChannel? ev with
    | some ch =>
      let st := (ds.channels ch).getD { channel := ch }
      { ds with channels := fun c => if c = ch then some (st.merge ev) else ds.channels c }
    | none => { ds with other_events := ds.other_events ++ [ev] }

/-- `protocol.build_device_state`: left-to-right fold of `build_step`
over the decoded rows, starting from the empty state. -/
def build_device_state (parsed_rows : List DecodedEvent) : DeviceState :=
  parsed_rows.foldl build_step {}

/-! ## Subsets of the seven weekdays

A subset of the seven plain weekdays is represented by a selection
function `Fin 7 → Bool` over the canonical Monday..Sunday order (the
order of both `WeekdaySelect` and `WEEKDAY_BITS`). -/

/-- The seven plain weekdays in canonical order. -/
def weekdayList : List WeekdaySelect :=
  [.monday, .tuesday, .wednesday, .thursday, .friday, .saturday, .sunday]

/-- The seven weekday names in canonical order. -/
def weekdayNames : List String :=
  ["monday", "tuesday", "wednesday", "thursday", "friday", "saturday", "sunday"]

/-- The members of a weekday subset, in canonical order. -/
def selectedDays (b : Fin 7 → Bool) : List WeekdaySelect :=
  ((List.finRange 7).filter (fun i => b i)).map (fun i => weekdayList.getD i .monday)

/-- The names of a weekday subset, in canonical order. -/
def selectedNames (b : Fin 7 → Bool) : List String :=
  ((List.finRange 7).filter (fun i => b i)).map (fun i => weekdayNames.getD i "")

/-! ## Claim theorems -/

/-- **C4, counterexample.**  The claimed round-trip fails on the full
set of seven weekdays: its mask is 127, which `decode_weekdays` reports
as the sentinel `["everyday"]`, not as the seven day names. -/
theorem c4_counterexample :
    encode_selected_weekdays weekdayList = 127 ∧
    decode_weekdays (encode_selected_weekdays weekdayList) = ["everyday"] ∧
    ["everyday"] ≠ weekdayNames := by decide

set_option maxRecDepth 40000 in
/-- **C4 (amended).**  For every non-empty *proper* subset of the seven
weekdays, decoding the encoded mask yields exactly that subset (in
canonical order); the full set encodes to mask 127, which decodes to the
`["everyday"]` sentinel instead of the seven day names. -/
theorem c4_weekday_roundtrip :
    (∀ b : Fin 7 → Bool, (∃ i, b i = true) → (∃ j, b j = false) →
      decode_weekdays (encode_selected_weekdays (selectedDays b)) = selectedNames b) ∧
    encode_selected_weekdays weekdayList = 127 ∧
    decode_weekdays 127 = ["everyday"] := by decide

/-- **C4, witness.**  The singleton subset {monday} round-trips. -/
theorem c4_weekday_roundtrip_witness :
    decode_weekdays (encode_selected_weekdays (selectedDays (fun i => i == 0))) =
      selectedNames (fun i => i == 0) :=
  c4_weekday_roundtrip.1 (fun i => i == 0) ⟨0, rfl⟩ ⟨1, rfl⟩

/-- **C10.**  Encoding the empty weekday set returns mask 0, not the
"everyday" sentinel 127; `decode_weekdays 0 = []`, so the empty set also
round-trips, and an all-zero mask is never reported as "everyday". -/
theorem c10_empty_weekdays :
    encode_selected_weekdays [] = 0 ∧
    decode_weekdays 0 = [] ∧
    decode_weekdays (encode_selected_weekdays []) = [] ∧
    decode_weekdays 0 ≠ ["everyday"] := by decide

/-! ### C5: totals windowing -/

lemma first_totals_window_cons (x : ℕ) (t : List ℕ) :
    _first_totals_window (x :: t) =
      if (x :: t).length < 8 then none
      else if _looks_like_totals_pairs ((x :: t).take 8) then some ((x :: t).take 8)
      else _first_totals_window t := rfl

/-- The bounded linear scan returns the window at position `pre.length`
when every earlier window fails the plausibility filter. -/
lemma first_totals_window_at (pre win post : List ℕ) (hw : win.length = 8)
    (hpl : _looks_like_totals_pairs win = true)
    (hpre : ∀ i < pre.length,
      _looks_like_totals_pairs (((pre ++ win ++ post).drop i).take 8) = false) :
    _first_totals_window (pre ++ win ++ post) = some win := by
  induction pre with
  | nil =>
    simp only [List.nil_append]
    obtain ⟨w, ws, rfl⟩ := List.exists_cons_of_ne_nil
      (List.ne_nil_of_length_pos (by omega : 0 < win.length))
    rw [List.cons_append, first_totals_window_cons, ← List.cons_append]
    have hlen : ¬ ((w :: ws) ++ post).length < 8 := by
      simp only [List.length_append] at hw ⊢; omega
    rw [if_neg hlen, List.take_left' hw, if_pos hpl]
  | cons x pre ih =>
    have hx : _looks_like_totals_pairs (((x :: pre) ++ win ++ post).take 8) = false := by
      have := hpre 0 (by simp)
      simpa using this
    rw [List.cons_append, List.cons_append, first_totals_window_cons]
    have hlen : ¬ (x :: (pre ++ win ++ post)).length < 8 := by
      simp only [List.length_cons, List.length_append, hw]; omega
    rw [if_neg hlen]
    rw [List.cons_append, List.cons_append] at hx
    rw [hx, if_neg (by simp)]
    exact ih (fun i hi => by
      have := hpre (i + 1) (by simpa using Nat.succ_lt_succ hi)
      simpa using this)

/-- **C5, counterexample.**  Embedding a plausible window behind two
extra bytes can expose an *earlier* plausible window, and the scan
returns that first window, so the recovered totals differ from the
totals of the window decoded alone. -/
theorem c5_counterexample :
    parse_totals_frame [91, 1, 12, 0, 1, 34, 0, 0, 1, 0, 1, 0, 1, 0, 1, 0, 0] =
      some [0, (25.6 : ℚ), (25.6 : ℚ), (25.6 : ℚ)] ∧
    parse_totals_frame [91, 1, 10, 0, 1, 34, 1, 0, 1, 0, 1, 0, 1, 0, 0] =
      some [(25.6 : ℚ), (25.6 : ℚ), (25.6 : ℚ), (25.6 : ℚ)] ∧
    ([0, (25.6 : ℚ), (25.6 : ℚ), (25.6 : ℚ)] : List ℚ) ≠
      [(25.6 : ℚ), (25.6 : ℚ), (25.6 : ℚ), (25.6 : ℚ)] := by
  refine ⟨?_, ?_, by norm_num⟩ <;>
    norm_num [parse_totals_frame, _first_totals_window, _looks_like_totals_pairs,
      _decode_totals_pairs, pyRound1]

/-- **C5 (amended).**  For every 8-byte window passing the plausibility
filter, `parse_totals_frame` on a 0x5B payload embedding that window in
extra surrounding bytes returns the same 4 totals as on a payload whose
parameter list is exactly that window, *provided no earlier contiguous
8-byte window of the parameter list passes the filter* (the scan returns
the first plausible window). -/
theorem c5_totals_windowing (h1 h2 h3 h4 h5 ck k1 k2 k3 k4 k5 ck' : ℕ)
    (pre win post : List ℕ) (hw : win.length = 8)
    (hpl : _looks_like_totals_pairs win = true)
    (hpre : ∀ i < pre.length,
      _looks_like_totals_pairs (((pre ++ win ++ post).drop i).take 8) = false) :
    parse_totals_frame (91 :: h1 :: h2 :: h3 :: h4 :: h5 :: ((pre ++ win ++ post) ++ [ck])) =
      some (_decode_totals_pairs win) ∧
    parse_totals_frame (91 :: k1 :: k2 :: k3 :: k4 :: k5 :: (win ++ [ck'])) =
      some (_decode_totals_pairs win) := by
  constructor
  · show parse_totals_frame _ = _
    rw [parse_totals_frame]
    have hlen : ¬ (91 :: h1 :: h2 :: h3 :: h4 :: h5 :: ((pre ++ win ++ post) ++ [ck])).length < 15 := by
      simp only [List.length_cons, List.length_append, List.length_nil, hw]
      omega
    rw [if_neg hlen, if_neg (by simp)]
    have hparams : ((91 :: h1 :: h2 :: h3 :: h4 :: h5 :: ((pre ++ win ++ post) ++ [ck])).drop 6).dropLast
        = pre ++ win ++ post := by
      simp only [List.drop_succ_cons, List.drop_zero, List.dropLast_concat]
    rw [hparams]
    by_cases h8 : (pre ++ win ++ post).length = 8
    · have hpre0 : pre = [] := by
        cases pre with
        | nil => rfl
        | cons a l =>
          exfalso
          simp only [List.length_append, List.length_cons, hw] at h8
          omega
      have hpost : post = [] := by
        cases post with
        | nil => rfl
        | cons a l =>
          exfalso
          simp only [List.length_append, List.length_cons, hw] at h8
          omega
      subst hpre0; subst hpost
      simp only [List.nil_append, List.append_nil]
      rw [if_pos ⟨hw, hpl⟩]
    · rw [if_neg (by rintro ⟨h, -⟩; exact h8 h)]
      have : 8 ≤ (pre ++ win ++ post).length := by
        simp only [List.length_append, hw]; omega
      rw [if_pos this, first_totals_window_at pre win post hw hpl hpre]
      rfl
  · show parse_totals_frame _ = _
    rw [parse_totals_frame]
    have hlen : ¬ (91 :: k1 :: k2 :: k3 :: k4 :: k5 :: (win ++ [ck'])).length < 15 := by
      simp only [List.length_cons, List.length_append, List.length_nil, hw]
      omega
    rw [if_neg hlen, if_neg (by simp)]
    have hparams : ((91 :: k1 :: k2 :: k3 :: k4 :: k5 :: (win ++ [ck'])).drop 6).dropLast = win := by
      simp only [List.drop_succ_cons, List.drop_zero, List.dropLast_concat]
    rw [hparams, if_pos ⟨hw, hpl⟩]

/-- **C5, witness.**  A concrete plausible window `[1,0,2,0,3,0,4,0]`
embedded behind an implausible prefix `[201, 77]` is recovered exactly
as when it is the whole parameter list. -/
theorem c5_totals_windowing_witness :
    parse_totals_frame (91 :: 1 :: 2 :: 3 :: 4 :: 5 ::
        (([201, 77] ++ [1, 0, 2, 0, 3, 0, 4, 0] ++ []) ++ [9])) =
      some (_decode_totals_pairs [1, 0, 2, 0, 3, 0, 4, 0]) ∧
    parse_totals_frame (91 :: 1 :: 2 :: 3 :: 4 :: 5 ::
        ([1, 0, 2, 0, 3, 0, 4, 0] ++ [9])) =
      some (_decode_totals_pairs [1, 0, 2, 0, 3, 0, 4, 0]) :=
  c5_totals_windowing 1 2 3 4 5 9 1 2 3 4 5 9 [201, 77] [1, 0, 2, 0, 3, 0, 4, 0] []
    (by decide) (by decide) (by decide)

/-! ### C6: total decode pipeline -/

/-- **C6.**  `decode_records` maps `parse_frame` over the records,
order-preserving and length-preserving (both functions are total, so no
input can raise), and `parse_frame` returns an `unknown` event carrying
the raw cmd, mode and params for every shape outside the recognized
families (90/9 len 6, 165/32 len 3, 165/27 len 5 or 6, 165/21 len 6,
90/4, 165/4). -/
theorem c6_decode_records_total :
    (∀ rs : List (ℕ × ℕ × List ℕ),
      decode_records rs = rs.map (fun r => parse_frame r.1 r.2.1 r.2.2) ∧
      (decode_records rs).length = rs.length) ∧
    (∀ cmd mode : ℕ, ∀ ps : List ℕ,
      ¬(cmd = 90 ∧ mode = 9 ∧ ps.length = 6) →
      ¬(cmd = 165 ∧ mode = 32 ∧ ps.length = 3) →
      ¬(cmd = 165 ∧ mode = 27 ∧ (ps.length = 5 ∨ ps.length = 6)) →
      ¬(cmd = 165 ∧ mode = 21 ∧ ps.length = 6) →
      ¬((cmd = 90 ∧ mode = 4) ∨ (cmd = 165 ∧ mode = 4)) →
      parse_frame cmd mode ps = .unknown cmd mode ps) := by
  refine ⟨fun rs => ⟨rfl, by simp [decode_records]⟩,
    fun cmd mode ps h1 h2 h3 h4 h5 => ?_⟩
  rw [parse_frame, if_neg h1, if_neg h2, if_neg h3, if_neg h4, if_neg h5]

/-- **C6, witness.**  A one-record batch decodes in place, and the
unrecognized shape (0, 0, []) becomes an `unknown` event. -/
theorem c6_decode_records_total_witness :
    decode_records [(0, 0, ([] : List ℕ))] =
      [(0, 0, ([] : List ℕ))].map (fun r => parse_frame r.1 r.2.1 r.2.2) ∧
    parse_frame 0 0 [] = .unknown 0 0 [] :=
  ⟨(c6_decode_records_total.1 [(0, 0, [])]).1,
   c6_decode_records_total.2 0 0 []
     (by decide) (by decide) (by decide) (by decide) (by decide)⟩

/-! ### C7: state builder -/

/-- **C7, counterexample.**  `build_device_state` is *not*
last-write-wins for every field an event carries: after an `activate`
event enables channel 0, a later weekly `dose_entry` carrying
`enabled = false` does not overwrite the flag (the merge applies a
`dose_entry`'s enabled key only when the stored flag is still unset), so
the channel stays enabled. -/
theorem c7_counterexample :
    (((build_device_state
        [.activate 0 true,
         .dose_entry_weekly 0 127 ["everyday"] false 1 2 (75/10)]).channels 0).map
      ChannelState.enabled) = some (some true) ∧
    some (some true) ≠ some (some false) := by
  constructor
  · rfl
  · simp

/-- **C7 (amended).**  `build_device_state` is a single left-to-right
fold of `build_step`: a `time_set` event replaces the stored device
time; a channel event (`activate`, `dose_entry`, `manual_dose`,
`timer`) is merged into that channel's accumulated state, the later
event winning for every field it carries — *except* a `dose_entry`'s
enabled flag, which is applied only when the channel's enabled flag is
still unset — and no earlier write is ever rolled back; every other
event is appended, in order, to the overflow list. -/
theorem c7_build_device_state :
    (∀ evs ev, build_device_state (evs ++ [ev]) =
        build_step (build_device_state evs) ev) ∧
    (∀ ds y mo i h mi s, build_step ds (.time_set y mo i h mi s) =
        { ds with device_time := some (.time_set y mo i h mi s) }) ∧
    (∀ ds ev ch, eventChannel? ev = some ch →
      build_step ds ev =
        { ds with channels := fun c =>
            if c = ch then some (((ds.channels ch).getD { channel := ch }).merge ev)
            else ds.channels c }) ∧
    (∀ ds ev, ev.isTimeSet = false → eventChannel? ev = none →
      build_step ds ev = { ds with other_events := ds.other_events ++ [ev] }) ∧
    (∀ st ch en, ChannelState.merge st (.activate ch en) =
        { st with enabled := some en }) ∧
    (∀ st ch ml raw, ChannelState.merge st (.manual_dose ch ml raw) =
        { st with amount_ml := some ml }) ∧
    (∀ st ch tt hh mm w, ChannelState.merge st (.timer ch tt hh mm w) =
        { st with timer :=
            { timer_type := some tt, start_hour := some hh, start_minute := some mm } }) ∧
    (∀ st ch mask wd ml aux w,
      ChannelState.merge st (.dose_entry_legacy ch mask wd ml aux w) =
        { st with amount_ml := some ml, weekdays_mask := some mask, weekdays := wd }) ∧
    (∀ st ch mask wd en hh mm ml,
      ChannelState.merge st (.dose_entry_weekly ch mask wd en hh mm ml) =
        { st with amount_ml := some ml, weekdays_mask := some mask, weekdays := wd,
                  time_hour := some hh, time_minute := some mm,
                  enabled := if st.enabled = none then some en else st.enabled }) := by
  refine ⟨?_, fun _ _ _ _ _ _ _ => rfl, ?_, ?_,
    fun _ _ _ => rfl, fun _ _ _ _ => rfl, fun _ _ _ _ _ _ => rfl,
    fun _ _ _ _ _ _ _ => rfl, fun _ _ _ _ _ _ _ _ => rfl⟩
  · intro evs ev
    simp [build_device_state, List.foldl_append]
  · intro ds ev ch h
    cases ev <;>
      first
      | (simp only [eventChannel?, Option.some.injEq] at h; subst h; rfl)
      | exact Option.noConfusion h
  · intro ds ev h1 h2
    cases ev <;>
      first
      | rfl
      | exact Option.noConfusion h2
      | exact Bool.noConfusion h1

/-- **C7, witness.**  The channel-merge arm of the fold at a concrete
`activate` event on the empty state. -/
theorem c7_build_device_state_witness :
    build_step {} (.activate 2 true) =
      { device_time := none
        channels := fun c =>
          if c = 2 then some (ChannelState.merge { channel := 2 } (.activate 2 true))
          else none
        other_events := [] } :=
  c7_build_device_state.2.2.1 {} (.activate 2 true) 2 rfl

/-! ### Frame-builder lemmas (C2, C3, C9)

The checksum of a frame body is the XOR of a fixed base (version byte,
length byte, mode, parameters) with the two message-id bytes; bumping
the message id changes the low byte (or wraps it to 0 and bumps the high
byte), so among any three successive message ids at most two can produce
the sentinel checksum 0x5A. -/

lemma xor_lt256 {x y : ℕ} (hx : x < 256) (hy : y < 256) : x ^^^ y < 256 := by
  have h : (256 : ℕ) = 2 ^ 8 := by norm_num
  rw [h] at hx hy ⊢
  exact Nat.xor_lt_two_pow hx hy

lemma foldl_xor_eq (l : List ℕ) : ∀ a : ℕ,
    l.foldl (· ^^^ ·) a = a ^^^ l.foldl (· ^^^ ·) 0 := by
  induction l with
  | nil => intro a; simp
  | cons x t ih =>
    intro a
    simp only [List.foldl_cons]
    rw [ih (a ^^^ x), ih (0 ^^^ x)]
    simp [Nat.xor_assoc]

lemma foldl_xor_lt (l : List ℕ) (hl : ∀ b ∈ l, b < 256) :
    ∀ a : ℕ, a < 256 → l.foldl (· ^^^ ·) a < 256 := by
  induction l with
  | nil => intro a ha; simpa
  | cons x t ih =>
    intro a ha
    simp only [List.foldl_cons]
    exact ih (fun b hb => hl b (List.mem_cons_of_mem x hb)) (a ^^^ x)
      (xor_lt256 ha (hl x (List.mem_cons_self x t)))

lemma xor_checksum_cons (cmd L h l m : ℕ) (ps : List ℕ) :
    _xor_checksum (cmd :: 1 :: L :: h :: l :: m :: ps) =
      ((1 ^^^ L ^^^ m ^^^ ps.foldl (· ^^^ ·) 0) ^^^ (h ^^^ l)) % 256 := by
  show ((L :: h :: l :: m :: ps).foldl (· ^^^ ·) 1) % 256 = _
  simp only [List.foldl_cons]
  rw [foldl_xor_eq]
  congr 1
  ac_rfl

lemma bump_cases (a b : ℕ) (h2 : b < 256) :
    (b = 89 ∧ _bump_msg_id (a, b) = (a, 91)) ∨
    (b = 255 ∧ _bump_msg_id (a, b) =
      ((if (a + 1) % 256 = 90 then 91 else (a + 1) % 256), 0)) ∨
    (b ≠ 89 ∧ b ≠ 255 ∧ _bump_msg_id (a, b) = (a, b + 1)) := by
  by_cases h89 : b = 89
  · subst h89
    exact Or.inl ⟨rfl, by norm_num [_bump_msg_id]⟩
  · by_cases h255 : b = 255
    · subst h255
      refine Or.inr (Or.inl ⟨rfl, ?_⟩)
      unfold _bump_msg_id
      norm_num
      split
      · rename_i hc
        omega
      · rfl
    · refine Or.inr (Or.inr ⟨h89, h255, ?_⟩)
      unfold _bump_msg_id
      have e1 : (b + 1) % 256 = b + 1 := Nat.mod_eq_of_lt (by omega)
      simp only [e1]
      rw [if_neg (show ¬(b + 1 = 90) by omega)]
      rw [if_neg (show ¬(b + 1 = 0) by omega)]

lemma bump_fst_lt (a b : ℕ) (h1 : a < 256) (h2 : b < 256) :
    (_bump_msg_id (a, b)).1 < 256 := by
  rcases bump_cases a b h2 with ⟨h, e⟩ | ⟨h, e⟩ | ⟨h, h', e⟩ <;> rw [e]
  · exact h1
  · dsimp only
    split
    · omega
    · exact Nat.mod_lt _ (by omega)
  · exact h1

lemma bump_snd_lt (a b : ℕ) (h2 : b < 256) : (_bump_msg_id (a, b)).2 < 256 := by
  rcases bump_cases a b h2 with ⟨h, e⟩ | ⟨h, e⟩ | ⟨h, h', e⟩ <;> rw [e] <;> omega

lemma bump_snd_ne (a b : ℕ) (h2 : b < 256) : (_bump_msg_id (a, b)).2 ≠ b := by
  rcases bump_cases a b h2 with ⟨h, e⟩ | ⟨h, e⟩ | ⟨h, h', e⟩ <;> rw [e] <;> omega

lemma bump_fst_change (a b : ℕ) (h2 : b < 256) (h : (_bump_msg_id (a, b)).1 ≠ a) :
    (_bump_msg_id (a, b)).2 = 0 := by
  rcases bump_cases a b h2 with ⟨hb, e⟩ | ⟨hb, e⟩ | ⟨hb, hb', e⟩
  · rw [e] at h; exact absurd rfl h
  · rw [e]
  · rw [e] at h; exact absurd rfl h

lemma bump_zero (a : ℕ) : _bump_msg_id (a, 0) = (a, 1) := by
  rcases bump_cases a 0 (by omega) with ⟨h, e⟩ | ⟨h, e⟩ | ⟨h, h', e⟩ <;> first | omega | exact e

lemma bump_snd_ne90 (a b : ℕ) (h2 : b < 256) : (_bump_msg_id (a, b)).2 ≠ 90 := by
  rcases bump_cases a b h2 with ⟨h, e⟩ | ⟨h, e⟩ | ⟨h, h', e⟩ <;> rw [e] <;> omega

lemma bump_fst_ne90 (a b : ℕ) (h1 : a ≠ 90) (h2 : b < 256) :
    (_bump_msg_id (a, b)).1 ≠ 90 := by
  rcases bump_cases a b h2 with ⟨h, e⟩ | ⟨h, e⟩ | ⟨h, h', e⟩ <;> rw [e]
  · exact h1
  · dsimp only
    split
    · omega
    · rename_i hc; exact hc
  · exact h1

lemma bump_fst_lt_p (p : ℕ × ℕ) (h1 : p.1 < 256) (h2 : p.2 < 256) :
    (_bump_msg_id p).1 < 256 := bump_fst_lt p.1 p.2 h1 h2

lemma bump_snd_lt_p (p : ℕ × ℕ) (h2 : p.2 < 256) :
    (_bump_msg_id p).2 < 256 := bump_snd_lt p.1 p.2 h2

lemma bump_snd_ne90_p (p : ℕ × ℕ) (h2 : p.2 < 256) :
    (_bump_msg_id p).2 ≠ 90 := bump_snd_ne90 p.1 p.2 h2

lemma bump_fst_ne90_p (p : ℕ × ℕ) (h1 : p.1 ≠ 90) (h2 : p.2 < 256) :
    (_bump_msg_id p).1 ≠ 90 := bump_fst_ne90 p.1 p.2 h1 h2

/-- Among a message id, its bump and its double bump, at most two can
have the same XOR of components. -/
lemma not_three_bad (E : ℕ) (p : ℕ × ℕ) (h2 : p.2 < 256) :
    ¬(p.1 ^^^ p.2 = E ∧
      (_bump_msg_id p).1 ^^^ (_bump_msg_id p).2 = E ∧
      (_bump_msg_id (_bump_msg_id p)).1 ^^^ (_bump_msg_id (_bump_msg_id p)).2 = E) := by
  obtain ⟨a, b⟩ := p
  rintro ⟨b1, b2, b3⟩
  by_cases hh : (_bump_msg_id (a, b)).1 = a
  · rw [hh] at b2
    have hb : b = (_bump_msg_id (a, b)).2 := Nat.xor_right_inj.mp (b1.trans b2.symm)
    exact bump_snd_ne a b h2 hb.symm
  · have hz : (_bump_msg_id (a, b)).2 = 0 := bump_fst_change a b h2 hh
    have hq0 : _bump_msg_id (a, b) = ((_bump_msg_id (a, b)).1, 0) := by rw [← hz]
    have hq : _bump_msg_id (_bump_msg_id (a, b)) = ((_bump_msg_id (a, b)).1, 1) := by
      rw [hq0, bump_zero]
    rw [hq] at b3
    rw [hq0] at b2
    have : (0 : ℕ) = 1 := Nat.xor_right_inj.mp (b2.trans b3.symm)
    omega

section BuilderLoop

variable (cmd K mode : ℕ) (ps : List ℕ)

lemma chk_lt (body : List ℕ) : _xor_checksum body < 256 := by
  match body with
  | [] => exact (by norm_num : (0:ℕ) < 256)
  | [_] => exact (by norm_num : (0:ℕ) < 256)
  | _ :: c :: rest => exact Nat.mod_lt _ (by norm_num)

/-- The frame checksum hits the sentinel exactly when the XOR of the two
message-id bytes equals a base value independent of the message id. -/
lemma chk_eq_90_iff (hm : mode < 256) (hL : ps.length + K < 256)
    (hps : ∀ b ∈ ps, b < 256) (q : ℕ × ℕ) (hq1 : q.1 < 256) (hq2 : q.2 < 256) :
    (_xor_checksum (frame_body cmd K mode q ps) = 90 ↔
      q.1 ^^^ q.2 = (1 ^^^ (ps.length + K) ^^^ mode ^^^ ps.foldl (· ^^^ ·) 0) ^^^ 90) := by
  have hB : (1 ^^^ (ps.length + K) ^^^ mode ^^^ ps.foldl (· ^^^ ·) 0) < 256 :=
    xor_lt256 (xor_lt256 (xor_lt256 (by norm_num) hL) hm) (foldl_xor_lt ps hps 0 (by norm_num))
  have hx : q.1 ^^^ q.2 < 256 := xor_lt256 hq1 hq2
  unfold frame_body
  rw [xor_checksum_cons, Nat.mod_eq_of_lt (xor_lt256 hB hx)]
  constructor
  · intro h
    rw [← h, Nat.xor_cancel_left]
  · intro h
    rw [h, Nat.xor_cancel_left]

lemma build_loop_ret (fuel : ℕ) (hf : 1 ≤ fuel) (p : ℕ × ℕ)
    (h : _xor_checksum (frame_body cmd K mode p ps) ≠ 90) :
    build_loop cmd K mode ps fuel p =
      frame_body cmd K mode p ps ++ [_xor_checksum (frame_body cmd K mode p ps)] := by
  cases fuel with
  | zero => omega
  | succ f => simp [build_loop, h]

lemma build_loop_step (fuel : ℕ) (hf : 2 ≤ fuel) (p : ℕ × ℕ)
    (h : _xor_checksum (frame_body cmd K mode p ps) = 90) :
    build_loop cmd K mode ps fuel p =
      build_loop cmd K mode ps (fuel - 1) (_bump_msg_id p) := by
  cases fuel with
  | zero => omega
  | succ f =>
    have hf0 : f ≠ 0 := by omega
    simp [build_loop, h, hf0]

lemma build_loop_shape (fuel : ℕ) : ∀ p : ℕ × ℕ, ∃ q : ℕ × ℕ,
    build_loop cmd K mode ps fuel p =
      frame_body cmd K mode q ps ++ [_xor_checksum (frame_body cmd K mode q ps)] := by
  induction fuel with
  | zero => exact fun p => ⟨p, rfl⟩
  | succ f ih =>
    intro p
    by_cases h : _xor_checksum (frame_body cmd K mode p ps) ≠ 90 ∨ f = 0
    · refine ⟨p, ?_⟩
      simp only [build_loop]
      rw [if_pos h]
    · obtain ⟨q, hq⟩ := ih (_bump_msg_id p)
      refine ⟨q, ?_⟩
      simp only [build_loop]
      rw [if_neg h]
      exact hq

/-- With 8 attempts the A5 retry loop always exits with a non-sentinel
checksum, at the original message id or after at most two bumps. -/
lemma build_loop8 (hm : mode < 256) (hL : ps.length + K < 256)
    (hps : ∀ b ∈ ps, b < 256) (p : ℕ × ℕ) (h1 : p.1 < 256) (h2 : p.2 < 256) :
    ∃ q : ℕ × ℕ,
      (q = p ∨ q = _bump_msg_id p ∨ q = _bump_msg_id (_bump_msg_id p)) ∧
      build_loop cmd K mode ps 8 p =
        frame_body cmd K mode q ps ++ [_xor_checksum (frame_body cmd K mode q ps)] ∧
      _xor_checksum (frame_body cmd K mode q ps) ≠ 90 := by
  have hb1 : (_bump_msg_id p).1 < 256 := bump_fst_lt p.1 p.2 h1 h2
  have hb2 : (_bump_msg_id p).2 < 256 := bump_snd_lt p.1 p.2 h2
  have hbb1 : (_bump_msg_id (_bump_msg_id p)).1 < 256 :=
    bump_fst_lt (_bump_msg_id p).1 (_bump_msg_id p).2 hb1 hb2
  have hbb2 : (_bump_msg_id (_bump_msg_id p)).2 < 256 :=
    bump_snd_lt (_bump_msg_id p).1 (_bump_msg_id p).2 hb2
  by_cases c0 : _xor_checksum (frame_body cmd K mode p ps) = 90
  · by_cases c1 : _xor_checksum (frame_body cmd K mode (_bump_msg_id p) ps) = 90
    · have c2 : _xor_checksum (frame_body cmd K mode (_bump_msg_id (_bump_msg_id p)) ps) ≠ 90 := by
        intro hc
        refine not_three_bad
          ((1 ^^^ (ps.length + K) ^^^ mode ^^^ ps.foldl (· ^^^ ·) 0) ^^^ 90) p h2 ⟨?_, ?_, ?_⟩
        · exact (chk_eq_90_iff cmd K mode ps hm hL hps p h1 h2).mp c0
        · exact (chk_eq_90_iff cmd K mode ps hm hL hps _ hb1 hb2).mp c1
        · exact (chk_eq_90_iff cmd K mode ps hm hL hps _ hbb1 hbb2).mp hc
      refine ⟨_, Or.inr (Or.inr rfl), ?_, c2⟩
      rw [build_loop_step cmd K mode ps 8 (by omega) p c0,
          build_loop_step cmd K mode ps 7 (by omega) _ c1,
          build_loop_ret cmd K mode ps 6 (by omega) _ c2]
    · refine ⟨_, Or.inr (Or.inl rfl), ?_, c1⟩
      rw [build_loop_step cmd K mode ps 8 (by omega) p c0,
          build_loop_ret cmd K mode ps 7 (by omega) _ c1]
  · refine ⟨p, Or.inl rfl, ?_, c0⟩
    exact build_loop_ret cmd K mode ps 8 (by omega) p c0

lemma protocol_loop_ret (fuel : ℕ) (hf : 1 ≤ fuel) (st : ℕ × ℕ)
    (h : _xor_checksum (frame_body cmd K mode (_bump_msg_id st) ps) ≠ 90) :
    protocol_loop cmd K mode ps fuel st =
      (frame_body cmd K mode (_bump_msg_id st) ps ++
        [_xor_checksum (frame_body cmd K mode (_bump_msg_id st) ps)], _bump_msg_id st) := by
  cases fuel with
  | zero => omega
  | succ f => simp [protocol_loop, h]

lemma protocol_loop_step (fuel : ℕ) (hf : 2 ≤ fuel) (st : ℕ × ℕ)
    (h : _xor_checksum (frame_body cmd K mode (_bump_msg_id st) ps) = 90) :
    protocol_loop cmd K mode ps fuel st =
      protocol_loop cmd K mode ps (fuel - 1) (_bump_msg_id st) := by
  cases fuel with
  | zero => omega
  | succ f =>
    have hf0 : f ≠ 0 := by omega
    simp [protocol_loop, h, hf0]

lemma protocol_loop_shape (fuel : ℕ) : ∀ st : ℕ × ℕ, ∃ q : ℕ × ℕ,
    protocol_loop cmd K mode ps fuel st =
      (frame_body cmd K mode q ps ++ [_xor_checksum (frame_body cmd K mode q ps)], q) := by
  induction fuel with
  | zero => exact fun st => ⟨_bump_msg_id st, rfl⟩
  | succ f ih =>
    intro st
    by_cases h : _xor_checksum (frame_body cmd K mode (_bump_msg_id st) ps) ≠ 90 ∨ f = 0
    · refine ⟨_bump_msg_id st, ?_⟩
      simp only [protocol_loop]
      rw [if_pos h]
    · obtain ⟨q, hq⟩ := ih (_bump_msg_id st)
      refine ⟨q, ?_⟩
      simp only [protocol_loop]
      rw [if_neg h]
      exact hq

/-- With 8 attempts the protocol-module retry loop always exits with a
non-sentinel checksum, after one to three bumps of the entry state. -/
lemma protocol_loop8 (hm : mode < 256) (hL : ps.length + K < 256)
    (hps : ∀ b ∈ ps, b < 256) (st : ℕ × ℕ) (h1 : st.1 < 256) (h2 : st.2 < 256) :
    ∃ q : ℕ × ℕ,
      (q = _bump_msg_id st ∨ q = _bump_msg_id (_bump_msg_id st) ∨
        q = _bump_msg_id (_bump_msg_id (_bump_msg_id st))) ∧
      protocol_loop cmd K mode ps 8 st =
        (frame_body cmd K mode q ps ++ [_xor_checksum (frame_body cmd K mode q ps)], q) ∧
      _xor_checksum (frame_body cmd K mode q ps) ≠ 90 := by
  have hb1 : (_bump_msg_id st).1 < 256 := bump_fst_lt st.1 st.2 h1 h2
  have hb2 : (_bump_msg_id st).2 < 256 := bump_snd_lt st.1 st.2 h2
  have hbb1 : (_bump_msg_id (_bump_msg_id st)).1 < 256 :=
    bump_fst_lt (_bump_msg_id st).1 (_bump_msg_id st).2 hb1 hb2
  have hbb2 : (_bump_msg_id (_bump_msg_id st)).2 < 256 :=
    bump_snd_lt (_bump_msg_id st).1 (_bump_msg_id st).2 hb2
  have hbbb1 : (_bump_msg_id (_bump_msg_id (_bump_msg_id st))).1 < 256 :=
    bump_fst_lt (_bump_msg_id (_bump_msg_id st)).1 (_bump_msg_id (_bump_msg_id st)).2 hbb1 hbb2
  have hbbb2 : (_bump_msg_id (_bump_msg_id (_bump_msg_id st))).2 < 256 :=
    bump_snd_lt (_bump_msg_id (_bump_msg_id st)).1 (_bump_msg_id (_bump_msg_id st)).2 hbb2
  by_cases c0 : _xor_checksum (frame_body cmd K mode (_bump_msg_id st) ps) = 90
  · by_cases c1 : _xor_checksum (frame_body cmd K mode (_bump_msg_id (_bump_msg_id st)) ps) = 90
    · have c2 : _xor_checksum
          (frame_body cmd K mode (_bump_msg_id (_bump_msg_id (_bump_msg_id st))) ps) ≠ 90 := by
        intro hc
        refine not_three_bad
          ((1 ^^^ (ps.length + K) ^^^ mode ^^^ ps.foldl (· ^^^ ·) 0) ^^^ 90)
          (_bump_msg_id st) hb2 ⟨?_, ?_, ?_⟩
        · exact (chk_eq_90_iff cmd K mode ps hm hL hps _ hb1 hb2).mp c0
        · exact (chk_eq_90_iff cmd K mode ps hm hL hps _ hbb1 hbb2).mp c1
        · exact (chk_eq_90_iff cmd K mode ps hm hL hps _ hbbb1 hbbb2).mp hc
      refine ⟨_, Or.inr (Or.inr rfl), ?_, c2⟩
      rw [protocol_loop_step cmd K mode ps 8 (by omega) st c0,
          protocol_loop_step cmd K mode ps 7 (by omega) _ c1,
          protocol_loop_ret cmd K mode ps 6 (by omega) _ c2]
    · refine ⟨_, Or.inr (Or.inl rfl), ?_, c1⟩
      rw [protocol_loop_step cmd K mode ps 8 (by omega) st c0,
          protocol_loop_ret cmd K mode ps 7 (by omega) _ c1]
  · refine ⟨_, Or.inl rfl, ?_, c0⟩
    exact protocol_loop_ret cmd K mode ps 8 (by omega) st c0

end BuilderLoop

/-! ### Sanitizer and clamp lemmas -/

lemma clamp_some {v b : ℤ} (h : _clamp_byte v = some b) : 0 ≤ b ∧ b ≤ 255 ∧ b = v := by
  unfold _clamp_byte at h
  split at h
  · cases h
  · rename_i hc
    push_neg at hc
    injection h with h'
    subst h'
    exact ⟨by omega, by omega, rfl⟩

lemma clamp_none {v : ℤ} (h : v < 0 ∨ v > 255) : _clamp_byte v = none := by
  unfold _clamp_byte
  rw [if_pos h]

lemma sanitize_dosing_some : ∀ {params : List ℤ} {ps : List ℕ},
    sanitize_params_dosing params = some ps →
    ps.length = params.length ∧ ∀ b ∈ ps, b < 256 ∧ b ≠ 90 := by
  intro params
  induction params with
  | nil =>
    intro ps h
    unfold sanitize_params_dosing at h
    injection h with h'
    subst h'
    exact ⟨rfl, by simp⟩
  | cons p rest ih =>
    intro ps h
    unfold sanitize_params_dosing at h
    cases hc : _clamp_byte p with
    | none => rw [hc] at h; cases h
    | some b =>
      rw [hc] at h
      cases hr : sanitize_params_dosing rest with
      | none => rw [hr] at h; cases h
      | some bs =>
        rw [hr] at h
        injection h with h'
        subst h'
        obtain ⟨hl, hb⟩ := ih hr
        obtain ⟨hb0, hb255, -⟩ := clamp_some hc
        refine ⟨by simp [hl], ?_⟩
        intro x hx
        rcases List.mem_cons.mp hx with rfl | hx'
        · split
          · exact ⟨by omega, by omega⟩
          · rename_i hne
            have : b.toNat ≠ 90 := by omega
            exact ⟨by omega, this⟩
        · exact hb x hx'

lemma sanitize_dosing_bad : ∀ {params : List ℤ} {p : ℤ}, p ∈ params →
    (p < 0 ∨ p > 255) → sanitize_params_dosing params = none := by
  intro params
  induction params with
  | nil => intro p hp; cases hp
  | cons q rest ih =>
    intro p hp hbad
    rcases List.mem_cons.mp hp with rfl | hmem
    · unfold sanitize_params_dosing
      rw [clamp_none hbad]
    · unfold sanitize_params_dosing
      cases hc : _clamp_byte q with
      | none => rfl
      | some b => rw [ih hmem hbad]

lemma sanitize_protocol_spec (params : List ℤ) :
    (sanitize_params_protocol params).length = params.length ∧
    ∀ b ∈ sanitize_params_protocol params, b < 256 ∧ b ≠ 90 := by
  refine ⟨by simp [sanitize_params_protocol], ?_⟩
  intro b hb
  simp only [sanitize_params_protocol, List.mem_map] at hb
  obtain ⟨p, -, rfl⟩ := hb
  show (if (Int.emod p 256).toNat = 90 then (89 : ℕ) else (Int.emod p 256).toNat) < 256 ∧
    (if (Int.emod p 256).toNat = 90 then (89 : ℕ) else (Int.emod p 256).toNat) ≠ 90
  have h0 : 0 ≤ Int.emod p 256 := Int.emod_nonneg p (by norm_num)
  have h1 : Int.emod p 256 < 256 := Int.emod_lt_of_pos p (by norm_num)
  split
  · exact ⟨by norm_num, by norm_num⟩
  · rename_i hne
    exact ⟨by omega, hne⟩

/-! ### Builder specification lemmas -/

/-- Everything the claims need about a frame successfully produced by
the dosing-pump (A5-family) builder. -/
lemma dosing_builder_spec {cmd_id cmd_mode : ℤ} {msg : ℤ × ℤ} {params : List ℤ}
    {frame : List ℕ}
    (h : _create_command_encoding_dosing_pump cmd_id cmd_mode msg params = some frame) :
    ∃ (c m : ℕ) (q : ℕ × ℕ) (ps : List ℕ),
      frame = frame_body c 5 m q ps ++ [_xor_checksum (frame_body c 5 m q ps)] ∧
      _xor_checksum (frame_body c 5 m q ps) ≠ 90 ∧
      ps.length = params.length ∧
      (∀ b ∈ ps, b < 256 ∧ b ≠ 90) ∧
      q.1 < 256 ∧ q.2 < 256 ∧
      (msg.1 ≠ 90 → msg.2 ≠ 90 → q.1 ≠ 90 ∧ q.2 ≠ 90) ∧
      c = cmd_id.toNat ∧ m = cmd_mode.toNat := by
  unfold _create_command_encoding_dosing_pump at h
  cases hc : _clamp_byte cmd_id with
  | none => rw [hc] at h; exact Option.noConfusion h
  | some c =>
  rw [hc] at h
  cases hm : _clamp_byte cmd_mode with
  | none => rw [hm] at h; exact Option.noConfusion h
  | some m =>
  rw [hm] at h
  cases hmh : _clamp_byte msg.1 with
  | none => rw [hmh] at h; exact Option.noConfusion h
  | some mh =>
  rw [hmh] at h
  cases hml : _clamp_byte msg.2 with
  | none => rw [hml] at h; exact Option.noConfusion h
  | some ml =>
  rw [hml] at h
  cases hps : sanitize_params_dosing params with
  | none => rw [hps] at h; exact Option.noConfusion h
  | some ps =>
  rw [hps] at h
  have hred : (if ps.length + 5 > 255 then (none : Option (List ℕ))
      else some (build_loop c.toNat 5 m.toNat ps 8 (mh.toNat, ml.toNat))) = some frame := h
  clear h
  split at hred
  · exact Option.noConfusion hred
  · rename_i hlen
    injection hred with h'
    obtain ⟨hpl, hpb⟩ := sanitize_dosing_some hps
    obtain ⟨hm0, hm255, -⟩ := clamp_some hm
    obtain ⟨hmh0, hmh255, hmhv⟩ := clamp_some hmh
    obtain ⟨hml0, hml255, hmlv⟩ := clamp_some hml
    have hmlt : m.toNat < 256 := by omega
    have hLlt : ps.length + 5 < 256 := by omega
    have hpslt : ∀ b ∈ ps, b < 256 := fun b hb => (hpb b hb).1
    obtain ⟨q, hqmem, hloop, hchk⟩ :=
      build_loop8 c.toNat 5 m.toNat ps hmlt hLlt hpslt (mh.toNat, ml.toNat)
        (by omega) (by omega)
    have hp1 : ((mh.toNat, ml.toNat) : ℕ × ℕ).1 < 256 := by show mh.toNat < 256; omega
    have hp2 : ((mh.toNat, ml.toNat) : ℕ × ℕ).2 < 256 := by show ml.toNat < 256; omega
    have hbp1 : (_bump_msg_id (mh.toNat, ml.toNat)).1 < 256 := bump_fst_lt_p _ hp1 hp2
    have hbp2 : (_bump_msg_id (mh.toNat, ml.toNat)).2 < 256 := bump_snd_lt_p _ hp2
    obtain ⟨-, -, hcv⟩ := clamp_some hc
    obtain ⟨-, -, hmv⟩ := clamp_some hm
    refine ⟨c.toNat, m.toNat, q, ps, by rw [← h', hloop], hchk, hpl, hpb, ?_, ?_, ?_,
      congrArg Int.toNat hcv, congrArg Int.toNat hmv⟩
    · rcases hqmem with rfl | rfl | rfl
      · exact hp1
      · exact hbp1
      · exact bump_fst_lt_p _ hbp1 hbp2
    · rcases hqmem with rfl | rfl | rfl
      · exact hp2
      · exact hbp2
      · exact bump_snd_lt_p _ hbp2
    · intro hne1 hne2
      have hmh90 : ((mh.toNat, ml.toNat) : ℕ × ℕ).1 ≠ 90 := by
        show mh.toNat ≠ 90
        intro hx
        apply hne1
        omega
      have hml90 : ml.toNat ≠ 90 := by
        intro hx
        apply hne2
        omega
      rcases hqmem with rfl | rfl | rfl
      · exact ⟨hmh90, hml90⟩
      · exact ⟨bump_fst_ne90_p _ hmh90 hp2, bump_snd_ne90_p _ hp2⟩
      · exact ⟨bump_fst_ne90_p _ (bump_fst_ne90_p _ hmh90 hp2) hbp2,
               bump_snd_ne90_p _ hbp2⟩

set_option maxHeartbeats 2000000 in
/-- Everything the claims need about a frame successfully produced by
the protocol-module retry loop, shared by `protocol_encode` (cmd, K = 5)
and `encode_5b` (0x5B, K = 2). -/
lemma protocol_loop8_spec (cmd K mode : ℕ) (ps : List ℕ)
    (hm : mode < 256) (hL : ps.length + K < 256) (hps : ∀ b ∈ ps, b < 256)
    {st : ℕ × ℕ} (h1 : st.1 < 256) (h2 : st.2 < 256) :
    ∃ q : ℕ × ℕ,
      protocol_loop cmd K mode ps 8 st =
        (frame_body cmd K mode q ps ++ [_xor_checksum (frame_body cmd K mode q ps)], q) ∧
      _xor_checksum (frame_body cmd K mode q ps) ≠ 90 ∧
      q.1 < 256 ∧ q.2 < 256 ∧ q.2 ≠ 90 ∧ (st.1 ≠ 90 → q.1 ≠ 90) := by
  obtain ⟨q, hqmem, hloop, hchk⟩ := protocol_loop8 cmd K mode ps hm hL hps st h1 h2
  have hb1 : (_bump_msg_id st).1 < 256 := bump_fst_lt_p st h1 h2
  have hb2 : (_bump_msg_id st).2 < 256 := bump_snd_lt_p st h2
  have hbb1 : (_bump_msg_id (_bump_msg_id st)).1 < 256 := bump_fst_lt_p _ hb1 hb2
  have hbb2 : (_bump_msg_id (_bump_msg_id st)).2 < 256 := bump_snd_lt_p _ hb2
  refine ⟨q, hloop, hchk, ?_, ?_, ?_, ?_⟩
  · rcases hqmem with rfl | rfl | rfl
    · exact hb1
    · exact hbb1
    · exact bump_fst_lt_p _ hbb1 hbb2
  · rcases hqmem with rfl | rfl | rfl
    · exact hb2
    · exact hbb2
    · exact bump_snd_lt_p _ hbb2
  · rcases hqmem with rfl | rfl | rfl
    · exact bump_snd_ne90_p st h2
    · exact bump_snd_ne90_p _ hb2
    · exact bump_snd_ne90_p _ hbb2
  · intro hne
    rcases hqmem with rfl | rfl | rfl
    · exact bump_fst_ne90_p st hne h2
    · exact bump_fst_ne90_p _ (bump_fst_ne90_p st hne h2) hb2
    · exact bump_fst_ne90_p _ (bump_fst_ne90_p _ (bump_fst_ne90_p st hne h2) hb2) hbb2

/-- Success conditions and result shape of `protocol_encode`. -/
lemma protocol_encode_spec {cmd mode : ℤ} {params : List ℤ} {st : ℕ × ℕ}
    {frame : List ℕ} {st' : ℕ × ℕ} (h1 : st.1 < 256) (h2 : st.2 < 256)
    (h : protocol_encode cmd mode params st = some (frame, st')) :
    ∃ q : ℕ × ℕ,
      frame = frame_body cmd.toNat 5 mode.toNat q (sanitize_params_protocol params) ++
        [_xor_checksum (frame_body cmd.toNat 5 mode.toNat q (sanitize_params_protocol params))] ∧
      _xor_checksum (frame_body cmd.toNat 5 mode.toNat q (sanitize_params_protocol params)) ≠ 90 ∧
      st' = q ∧ q.1 < 256 ∧ q.2 < 256 ∧ q.2 ≠ 90 ∧ (st.1 ≠ 90 → q.1 ≠ 90) := by
  unfold protocol_encode at h
  have hred : (if cmd < 0 ∨ cmd > 255 ∨ mode < 0 ∨ mode > 255 ∨
        (sanitize_params_protocol params).length + 5 > 255 then
        (none : Option (List ℕ × (ℕ × ℕ)))
      else some (protocol_loop cmd.toNat 5 mode.toNat (sanitize_params_protocol params) 8 st)) =
      some (frame, st') := h
  clear h
  split at hred
  · exact Option.noConfusion hred
  · rename_i hg
    push_neg at hg
    obtain ⟨-, -, hm0, hm255, hlen⟩ := hg
    obtain ⟨hpl, hpb⟩ := sanitize_protocol_spec params
    obtain ⟨q, hloop, hchk, hq1, hq2, hq90, hq90'⟩ :=
      protocol_loop8_spec cmd.toNat 5 mode.toNat (sanitize_params_protocol params)
        (by omega) (by omega) (fun b hb => (hpb b hb).1) h1 h2
    injection hred with h'
    rw [hloop] at h'
    injection h' with hf hs
    exact ⟨q, hf.symm, hchk, hs.symm, hq1, hq2, hq90, hq90'⟩

/-- Success conditions and result shape of `encode_5b`. -/
lemma encode_5b_spec {mode : ℤ} {params : List ℤ} {st : ℕ × ℕ}
    {frame : List ℕ} {st' : ℕ × ℕ} (h1 : st.1 < 256) (h2 : st.2 < 256)
    (h : encode_5b mode params st = some (frame, st')) :
    ∃ q : ℕ × ℕ,
      frame = frame_body 91 2 mode.toNat q (sanitize_params_protocol params) ++
        [_xor_checksum (frame_body 91 2 mode.toNat q (sanitize_params_protocol params))] ∧
      _xor_checksum (frame_body 91 2 mode.toNat q (sanitize_params_protocol params)) ≠ 90 ∧
      st' = q ∧ q.1 < 256 ∧ q.2 < 256 ∧ q.2 ≠ 90 ∧ (st.1 ≠ 90 → q.1 ≠ 90) := by
  unfold encode_5b at h
  have hred : (if mode < 0 ∨ mode > 255 ∨ (sanitize_params_protocol params).length + 2 > 255 then
        (none : Option (List ℕ × (ℕ × ℕ)))
      else some (protocol_loop 91 2 mode.toNat (sanitize_params_protocol params) 8 st)) =
      some (frame, st') := h
  clear h
  split at hred
  · exact Option.noConfusion hred
  · rename_i hg
    push_neg at hg
    obtain ⟨hm0, hm255, hlen⟩ := hg
    obtain ⟨hpl, hpb⟩ := sanitize_protocol_spec params
    obtain ⟨q, hloop, hchk, hq1, hq2, hq90, hq90'⟩ :=
      protocol_loop8_spec 91 2 mode.toNat (sanitize_params_protocol params)
        (by omega) (by omega) (fun b hb => (hpb b hb).1) h1 h2
    injection hred with h'
    rw [hloop] at h'
    injection h' with hf hs
    exact ⟨q, hf.symm, hchk, hs.symm, hq1, hq2, hq90, hq90'⟩

/-- **C2.**  Every frame produced by the frame builders — the dosing
(A5/165-family) builder and the protocol-module A5 and 5B/91-family
builders — ends in a checksum byte equal to the XOR of all frame bytes
from index 1 through the last parameter byte, and that checksum byte is
never 0x5A (the retry loop always finds a good message id within its 8
attempts). -/
theorem c2_checksum_invariant :
    (∀ (cmd_id cmd_mode : ℤ) (msg : ℤ × ℤ) (params : List ℤ) (frame : List ℕ),
      _create_command_encoding_dosing_pump cmd_id cmd_mode msg params = some frame →
      ∃ chk, frame.getLast? = some chk ∧ chk = _xor_checksum frame.dropLast ∧ chk ≠ 90) ∧
    (∀ (cmd mode : ℤ) (params : List ℤ) (st : ℕ × ℕ) (frame : List ℕ) (st' : ℕ × ℕ),
      st.1 < 256 → st.2 < 256 →
      protocol_encode cmd mode params st = some (frame, st') →
      ∃ chk, frame.getLast? = some chk ∧ chk = _xor_checksum frame.dropLast ∧ chk ≠ 90) ∧
    (∀ (mode : ℤ) (params : List ℤ) (st : ℕ × ℕ) (frame : List ℕ) (st' : ℕ × ℕ),
      st.1 < 256 → st.2 < 256 →
      encode_5b mode params st = some (frame, st') →
      ∃ chk, frame.getLast? = some chk ∧ chk = _xor_checksum frame.dropLast ∧ chk ≠ 90) := by
  refine ⟨?_, ?_, ?_⟩
  · intro cmd_id cmd_mode msg params frame h
    obtain ⟨c, m, q, ps, hframe, hchk, -⟩ := dosing_builder_spec h
    subst hframe
    exact ⟨_, List.getLast?_concat _, by rw [List.dropLast_concat], hchk⟩
  · intro cmd mode params st frame st' h1 h2 h
    obtain ⟨q, hframe, hchk, -⟩ := protocol_encode_spec h1 h2 h
    subst hframe
    exact ⟨_, List.getLast?_concat _, by rw [List.dropLast_concat], hchk⟩
  · intro mode params st frame st' h1 h2 h
    obtain ⟨q, hframe, hchk, -⟩ := encode_5b_spec h1 h2 h
    subst hframe
    exact ⟨_, List.getLast?_concat _, by rw [List.dropLast_concat], hchk⟩

/-- **C2, witness.**  The dosing builder at cmd 165, mode 27, msg id
(0, 1), params `[0, 0, 0, 1, 140]` emits
`[165, 1, 10, 0, 1, 27, 0, 0, 0, 1, 140, 156]`, whose last byte 156 is
the XOR of bytes 1..10 and is not 0x5A. -/
theorem c2_checksum_invariant_witness :
    ∃ chk, ([165, 1, 10, 0, 1, 27, 0, 0, 0, 1, 140, 156] : List ℕ).getLast? = some chk ∧
      chk = _xor_checksum ([165, 1, 10, 0, 1, 27, 0, 0, 0, 1, 140, 156] : List ℕ).dropLast ∧
      chk ≠ 90 :=
  c2_checksum_invariant.1 165 27 (0, 1) [0, 0, 0, 1, 140]
    [165, 1, 10, 0, 1, 27, 0, 0, 0, 1, 140, 156] (by decide)

/-- **C3.**  In every frame emitted by the frame builders no parameter
byte equals 0x5A (each 0x5A parameter is remapped to 0x59 before
framing) and, provided the starting message id avoids 0x5A, neither
message-id byte equals 0x5A; and `next_message_id`, applied to `none`
or to a byte pair avoiding 0x5A, returns a pair avoiding 0x5A,
incrementing low-byte-first with carry into the high byte. -/
theorem c3_sentinel_avoidance :
    (∀ (cmd_id cmd_mode : ℤ) (msg : ℤ × ℤ) (params : List ℤ) (frame : List ℕ),
      _create_command_encoding_dosing_pump cmd_id cmd_mode msg params = some frame →
      msg.1 ≠ 90 → msg.2 ≠ 90 →
      ∃ (c m : ℕ) (q : ℕ × ℕ) (ps : List ℕ),
        frame = frame_body c 5 m q ps ++ [_xor_checksum (frame_body c 5 m q ps)] ∧
        (∀ b ∈ ps, b ≠ 90) ∧ q.1 ≠ 90 ∧ q.2 ≠ 90) ∧
    (∀ (cmd mode : ℤ) (params : List ℤ) (st : ℕ × ℕ) (frame : List ℕ) (st' : ℕ × ℕ),
      st.1 < 256 → st.2 < 256 → st.1 ≠ 90 →
      protocol_encode cmd mode params st = some (frame, st') →
      ∃ q : ℕ × ℕ,
        frame = frame_body cmd.toNat 5 mode.toNat q (sanitize_params_protocol params) ++
          [_xor_checksum (frame_body cmd.toNat 5 mode.toNat q (sanitize_params_protocol params))] ∧
        (∀ b ∈ sanitize_params_protocol params, b ≠ 90) ∧ q.1 ≠ 90 ∧ q.2 ≠ 90) ∧
    (∀ (mode : ℤ) (params : List ℤ) (st : ℕ × ℕ) (frame : List ℕ) (st' : ℕ × ℕ),
      st.1 < 256 → st.2 < 256 → st.1 ≠ 90 →
      encode_5b mode params st = some (frame, st') →
      ∃ q : ℕ × ℕ,
        frame = frame_body 91 2 mode.toNat q (sanitize_params_protocol params) ++
          [_xor_checksum (frame_body 91 2 mode.toNat q (sanitize_params_protocol params))] ∧
        (∀ b ∈ sanitize_params_protocol params, b ≠ 90) ∧ q.1 ≠ 90 ∧ q.2 ≠ 90) ∧
    (∀ (pre post : List ℤ) (p : ℤ), Int.emod p 256 = 90 →
      sanitize_params_protocol (pre ++ p :: post) =
        sanitize_params_protocol pre ++ 89 :: sanitize_params_protocol post) ∧
    (next_message_id none = (0, 1) ∧
      ∀ hi lo : ℤ, 0 ≤ hi → hi ≤ 255 → 0 ≤ lo → lo ≤ 255 → hi ≠ 90 → lo ≠ 90 →
        (next_message_id (some (hi, lo))).1 < 256 ∧
        (next_message_id (some (hi, lo))).2 < 256 ∧
        (next_message_id (some (hi, lo))).1 ≠ 90 ∧
        (next_message_id (some (hi, lo))).2 ≠ 90 ∧
        (lo = 89 → next_message_id (some (hi, lo)) = (hi.toNat, 91)) ∧
        (lo = 255 → next_message_id (some (hi, lo)) =
          ((if (hi.toNat + 1) % 256 = 90 then 91 else (hi.toNat + 1) % 256), 0)) ∧
        (lo ≠ 89 → lo ≠ 255 → next_message_id (some (hi, lo)) = (hi.toNat, lo.toNat + 1))) := by
  refine ⟨?_, ?_, ?_, ?_, ?_, ?_⟩
  · intro cmd_id cmd_mode msg params frame h h90a h90b
    obtain ⟨c, m, q, ps, hframe, -, -, hpb, -, -, h90, -⟩ := dosing_builder_spec h
    exact ⟨c, m, q, ps, hframe, fun b hb => (hpb b hb).2, (h90 h90a h90b).1, (h90 h90a h90b).2⟩
  · intro cmd mode params st frame st' h1 h2 hne h
    obtain ⟨q, hframe, -, -, -, -, hq2, hq1⟩ := protocol_encode_spec h1 h2 h
    exact ⟨q, hframe, fun b hb => ((sanitize_protocol_spec params).2 b hb).2, hq1 hne, hq2⟩
  · intro mode params st frame st' h1 h2 hne h
    obtain ⟨q, hframe, -, -, -, -, hq2, hq1⟩ := encode_5b_spec h1 h2 h
    exact ⟨q, hframe, fun b hb => ((sanitize_protocol_spec params).2 b hb).2, hq1 hne, hq2⟩
  · intro pre post p hp
    simp only [sanitize_params_protocol, List.map_append, List.map_cons, hp]
    simp
  · rfl
  · intro hi lo h0 h255 l0 l255 hne90 lne90
    have ehi : Int.emod hi 256 = hi := Int.emod_eq_of_lt h0 (by omega)
    have elo : Int.emod lo 256 = lo := Int.emod_eq_of_lt l0 (by omega)
    have hnext : next_message_id (some (hi, lo)) = _bump_msg_id (hi.toNat, lo.toNat) := by
      show _bump_msg_id ((Int.emod hi 256).toNat, (Int.emod lo 256).toNat) = _
      rw [ehi, elo]
    have hp1 : ((hi.toNat, lo.toNat) : ℕ × ℕ).1 < 256 := by show hi.toNat < 256; omega
    have hp2 : ((hi.toNat, lo.toNat) : ℕ × ℕ).2 < 256 := by show lo.toNat < 256; omega
    have hp90 : ((hi.toNat, lo.toNat) : ℕ × ℕ).1 ≠ 90 := by show hi.toNat ≠ 90; omega
    rw [hnext]
    refine ⟨bump_fst_lt_p _ hp1 hp2, bump_snd_lt_p _ hp2,
      bump_fst_ne90_p _ hp90 hp2, bump_snd_ne90_p _ hp2, ?_, ?_, ?_⟩
    · intro h89
      rcases bump_cases hi.toNat lo.toNat hp2 with ⟨hb, e⟩ | ⟨hb, e⟩ | ⟨hb, hb', e⟩
      · exact e
      · omega
      · omega
    · intro h255'
      rcases bump_cases hi.toNat lo.toNat hp2 with ⟨hb, e⟩ | ⟨hb, e⟩ | ⟨hb, hb', e⟩
      · omega
      · exact e
      · omega
    · intro h89 h255'
      rcases bump_cases hi.toNat lo.toNat hp2 with ⟨hb, e⟩ | ⟨hb, e⟩ | ⟨hb, hb', e⟩
      · omega
      · omega
      · exact e

/-- **C3, witness.**  At msg id (0, 1) and params `[90, 0]`, the dosing
builder remaps the 0x5A parameter to 0x59 and emits
`[165, 1, 7, 0, 1, 27, 89, 0, 69]`: no parameter or message-id byte is
0x5A. -/
theorem c3_sentinel_avoidance_witness :
    ∃ (c m : ℕ) (q : ℕ × ℕ) (ps : List ℕ),
      ([165, 1, 7, 0, 1, 27, 89, 0, 69] : List ℕ) =
        frame_body c 5 m q ps ++ [_xor_checksum (frame_body c 5 m q ps)] ∧
      (∀ b ∈ ps, b ≠ 90) ∧ q.1 ≠ 90 ∧ q.2 ≠ 90 :=
  c3_sentinel_avoidance.1 165 27 (0, 1) [90, 0]
    [165, 1, 7, 0, 1, 27, 89, 0, 69] (by decide) (by decide) (by decide)

/-- **C9.**  Every emitted frame has the layout
`[cmd_id, version, length, msg_hi, msg_lo, mode, *params, checksum]`
with version byte 1 and, for n parameters, length byte n + 5 for the
A5/165 family and n + 2 for the 5B/91 family, so the total frame length
is n + 7 in both families. -/
theorem c9_frame_layout :
    (∀ (cmd_id cmd_mode : ℤ) (msg : ℤ × ℤ) (params : List ℤ) (frame : List ℕ),
      _create_command_encoding_dosing_pump cmd_id cmd_mode msg params = some frame →
      (∃ (hi lo chk : ℕ) (ps : List ℕ), ps.length = params.length ∧
        frame = cmd_id.toNat :: 1 :: (params.length + 5) :: hi :: lo :: cmd_mode.toNat ::
          (ps ++ [chk])) ∧
      frame[1]? = some 1 ∧ frame[2]? = some (params.length + 5) ∧
      frame.length = params.length + 7) ∧
    (∀ (mode : ℤ) (params : List ℤ) (st : ℕ × ℕ) (frame : List ℕ) (st' : ℕ × ℕ),
      st.1 < 256 → st.2 < 256 →
      encode_5b mode params st = some (frame, st') →
      (∃ (hi lo chk : ℕ) (ps : List ℕ), ps.length = params.length ∧
        frame = 91 :: 1 :: (params.length + 2) :: hi :: lo :: mode.toNat :: (ps ++ [chk])) ∧
      frame[1]? = some 1 ∧ frame[2]? = some (params.length + 2) ∧
      frame.length = params.length + 7) ∧
    (∀ (cmd mode : ℤ) (params : List ℤ) (st : ℕ × ℕ) (frame : List ℕ) (st' : ℕ × ℕ),
      st.1 < 256 → st.2 < 256 →
      protocol_encode cmd mode params st = some (frame, st') →
      (∃ (hi lo chk : ℕ) (ps : List ℕ), ps.length = params.length ∧
        frame = cmd.toNat :: 1 :: (params.length + 5) :: hi :: lo :: mode.toNat ::
          (ps ++ [chk])) ∧
      frame[1]? = some 1 ∧ frame[2]? = some (params.length + 5) ∧
      frame.length = params.length + 7) := by
  refine ⟨?_, ?_, ?_⟩
  · intro cmd_id cmd_mode msg params frame h
    obtain ⟨c, m, q, ps, hframe, -, hpl, -, -, -, -, hcv, hmv⟩ := dosing_builder_spec h
    subst hframe hcv hmv
    rw [← hpl]
    refine ⟨⟨q.1, q.2, _xor_checksum (frame_body cmd_id.toNat 5 cmd_mode.toNat q ps),
      ps, rfl, ?_⟩, ?_, ?_, ?_⟩
    · simp [frame_body]
    · simp [frame_body]
    · simp [frame_body]
    · simp only [frame_body, List.length_append, List.length_cons, List.length_nil]
  · intro mode params st frame st' h1 h2 h
    obtain ⟨q, hframe, -⟩ := encode_5b_spec h1 h2 h
    subst hframe
    rw [← (sanitize_protocol_spec params).1]
    refine ⟨⟨q.1, q.2,
      _xor_checksum (frame_body 91 2 mode.toNat q (sanitize_params_protocol params)),
      sanitize_params_protocol params, rfl, ?_⟩, ?_, ?_, ?_⟩
    · simp [frame_body]
    · simp [frame_body]
    · simp [frame_body]
    · simp only [frame_body, List.length_append, List.length_cons, List.length_nil]
  · intro cmd mode params st frame st' h1 h2 h
    obtain ⟨q, hframe, -⟩ := protocol_encode_spec h1 h2 h
    subst hframe
    rw [← (sanitize_protocol_spec params).1]
    refine ⟨⟨q.1, q.2,
      _xor_checksum (frame_body cmd.toNat 5 mode.toNat q (sanitize_params_protocol params)),
      sanitize_params_protocol params, rfl, ?_⟩, ?_, ?_, ?_⟩
    · simp [frame_body]
    · simp [frame_body]
    · simp [frame_body]
    · simp only [frame_body, List.length_append, List.length_cons, List.length_nil]

/-- **C9, witness.**  `encode_5b` at mode 0x22 with one parameter emits
the 8-byte frame `[91, 1, 3, 0, 1, 34, 2, 35]`: version byte 1, length
byte 1 + 2, total length 1 + 7. -/
theorem c9_frame_layout_witness :
    (∃ (hi lo chk : ℕ) (ps : List ℕ), ps.length = ([(2 : ℤ)] : List ℤ).length ∧
      ([91, 1, 3, 0, 1, 34, 2, 35] : List ℕ) =
        91 :: 1 :: (([(2 : ℤ)] : List ℤ).length + 2) :: hi :: lo :: (34 : ℤ).toNat ::
          (ps ++ [chk])) ∧
    ([91, 1, 3, 0, 1, 34, 2, 35] : List ℕ)[1]? = some 1 ∧
    ([91, 1, 3, 0, 1, 34, 2, 35] : List ℕ)[2]? = some (([(2 : ℤ)] : List ℤ).length + 2) ∧
    ([91, 1, 3, 0, 1, 34, 2, 35] : List ℕ).length = ([(2 : ℤ)] : List ℤ).length + 7 :=
  c9_frame_layout.2.1 34 [(2 : ℤ)] (0, 0) [91, 1, 3, 0, 1, 34, 2, 35] (0, 1)
    (by decide) (by decide) (by decide)

/-! ### C1: dose round-trip -/

lemma intHalfUp_intCast (z : ℤ) : intHalfUp (z : ℚ) = z := by
  unfold intHalfUp
  by_cases h : (0 : ℚ) ≤ (z : ℚ)
  · rw [if_pos h, add_comm, Int.floor_add_int]
    norm_num
  · rw [if_neg h]
    have hcast : -(z : ℚ) + 1/2 = ((-z : ℤ) : ℚ) + 1/2 := by push_cast; ring
    rw [hcast, add_comm, Int.floor_add_int]
    norm_num

lemma quantize1_tenths (n : ℤ) : quantize1 ((n : ℚ) / 10) = (n : ℚ) / 10 := by
  unfold quantize1
  have h : ((n : ℚ) / 10) * 10 = (n : ℚ) := by field_simp
  rw [h, intHalfUp_intCast]

lemma pyRound1_tenths (n : ℤ) : pyRound1 ((n : ℚ) / 10) = (n : ℚ) / 10 := by
  have h : ((n : ℚ) / 10) * 10 = (n : ℚ) := by field_simp
  unfold pyRound1
  simp only [h, Int.floor_intCast, sub_self]
  norm_num

/-- **C1.**  For every dose amount that is a multiple of 0.1 mL in
[0.2, 999.9] — written as t tenths with 2 ≤ t ≤ 9999 — the encoder
splits it into `(t / 256, t % 256)` (that is, `hi = ⌊ml / 25.6⌋` and
`lo = round((ml − hi·25.6)·10)`, the `lo = 256` carry never firing on
this domain), and decoding that byte pair returns exactly the original
amount: `ml_from_25_6 (hi, lo) = round(ml, 1) = ml`. -/
theorem c1_dose_roundtrip (t : ℕ) (ht2 : 2 ≤ t) (ht9 : t ≤ 9999) :
    split_ml_25_6 ((t : ℚ) / 10) = some (t / 256, t % 256) ∧
    ml_from_25_6 (t / 256) (t % 256) = (t : ℚ) / 10 := by
  set e := t / 256 with he
  set r := t % 256 with hr
  have htdm : 256 * e + r = t := Nat.div_add_mod t 256
  have hrlt : r < 256 := Nat.mod_lt t (by omega)
  have helt : e ≤ 39 := by omega
  have htq : (t : ℚ) = 256 * (e : ℚ) + (r : ℚ) := by exact_mod_cast htdm.symm
  have h256 : (25.6 : ℚ) = 256 / 10 := by norm_num
  have hq : quantize1 ((t : ℚ) / 10) = (t : ℚ) / 10 := by
    have hcast : ((t : ℕ) : ℚ) = (((t : ℕ) : ℤ) : ℚ) := by push_cast; rfl
    rw [hcast, quantize1_tenths]
  have hcond : ¬((t : ℚ) / 10 < 2/10 ∨ (t : ℚ) / 10 > 9999/10) := by
    push_neg
    have h2q : (2 : ℚ) ≤ (t : ℚ) := by exact_mod_cast ht2
    have h9q : (t : ℚ) ≤ 9999 := by exact_mod_cast ht9
    constructor <;> [linarith; linarith]
  have hhi : ⌊((t : ℚ) / 10) / (25.6 : ℚ)⌋ = (e : ℤ) := by
    have hmul : ((t : ℚ) / 10) * 10 = (t : ℚ) := by field_simp
    have hdiv : ((t : ℚ) / 10) / (25.6 : ℚ) = (t : ℚ) / 256 := by
      rw [h256, div_div_eq_mul_div, hmul]
    rw [hdiv]
    have hnonneg : (0 : ℚ) ≤ (t : ℚ) / 256 := by positivity
    rw [← Int.natCast_floor_eq_floor hnonneg]
    have : ((t : ℚ) / 256 : ℚ) = ((t : ℕ) : ℚ) / ((256 : ℕ) : ℚ) := by norm_num
    rw [this, Nat.floor_div_nat, Nat.floor_natCast]
  have hrem : (t : ℚ) / 10 - ((e : ℤ) : ℚ) * (25.6 : ℚ) = (r : ℚ) / 10 := by
    rw [h256, htq]
    push_cast
    ring
  have hq2 : quantize1 ((r : ℚ) / 10) = (r : ℚ) / 10 := by
    have hcast : ((r : ℕ) : ℚ) = (((r : ℕ) : ℤ) : ℚ) := by push_cast; rfl
    rw [hcast, quantize1_tenths]
  have hlo : intHalfUp (((r : ℚ) / 10) * 10) = (r : ℤ) := by
    have h : ((r : ℚ) / 10) * 10 = (r : ℚ) := by field_simp
    rw [h]
    have hcast : ((r : ℕ) : ℚ) = (((r : ℕ) : ℤ) : ℚ) := by push_cast; rfl
    rw [hcast, intHalfUp_intCast]
  constructor
  · show split_ml_25_6 ((t : ℚ) / 10) = some (e, r)
    unfold split_ml_25_6
    simp only [hq]
    rw [if_neg hcond, hhi, hrem, hq2, hlo,
      if_neg (show ¬((r : ℤ) = 256) by omega)]
    have hee : Int.emod ((e : ℕ) : ℤ) 256 = ((e : ℕ) : ℤ) :=
      Int.emod_eq_of_lt (Int.natCast_nonneg e) (by exact_mod_cast (show e < 256 by omega))
    have her : Int.emod ((r : ℕ) : ℤ) 256 = ((r : ℕ) : ℤ) :=
      Int.emod_eq_of_lt (Int.natCast_nonneg r) (by exact_mod_cast hrlt)
    rw [hee, her, Int.toNat_natCast, Int.toNat_natCast]
  · show pyRound1 ((25.6 : ℚ) * (e : ℚ) + (0.1 : ℚ) * (r : ℚ)) = (t : ℚ) / 10
    have hval : (25.6 : ℚ) * (e : ℚ) + (0.1 : ℚ) * (r : ℚ) = (((t : ℤ) : ℚ)) / 10 := by
      rw [h256]
      have h01 : (0.1 : ℚ) = 1 / 10 := by norm_num
      rw [h01]
      push_cast
      rw [htq]
      ring
    rw [hval, pyRound1_tenths]
    push_cast
    ring

/-- **C1, witness.**  39.6 mL (396 tenths) encodes to (1, 140) and
decodes back to 39.6. -/
theorem c1_dose_roundtrip_witness :
    split_ml_25_6 ((396 : ℚ) / 10) = some (1, 140) ∧
    ml_from_25_6 1 140 = (396 : ℚ) / 10 :=
  c1_dose_roundtrip 396 (by norm_num) (by norm_num)

/-! ### C8: parameter validation -/

lemma emod_toNat_le (x : ℤ) : (Int.emod x 256).toNat ≤ 255 := by
  have h0 : 0 ≤ Int.emod x 256 := Int.emod_nonneg x (by norm_num)
  have h1 : Int.emod x 256 < 256 := Int.emod_lt_of_pos x (by norm_num)
  omega

/-- **C8, counterexample.**  Not every frame builder raises for a
parameter byte outside [0, 255]: both protocol-module builders —
`encode_5b` and `protocol._encode` — mask the byte to 8 bits instead;
with parameter 300 each returns a frame (carrying 300 & 0xFF = 44)
rather than raising. -/
theorem c8_counterexample :
    encode_5b 34 [300] (0, 0) = some ([91, 1, 3, 0, 1, 34, 44, 13], (0, 1)) ∧
    protocol_encode 165 34 [300] (0, 0) = some ([165, 1, 6, 0, 1, 34, 44, 8], (0, 1)) := by
  constructor <;> decide

/-- **C8 (amended).**  The dosing-module (A5-family) builder rejects any
parameter byte outside [0, 255] with an error before a frame is built;
the protocol-module builders instead mask parameter bytes to 8 bits and
return normally (for a byte-ranged mode and frame length); and the dose
encoder raises exactly for every ml whose half-up rounding to one
decimal lies outside [0.2, 999.9], returning a valid byte pair for
every ml whose rounding lies inside that range. -/
theorem c8_invalid_parameter_rejection :
    (∀ (cmd_id cmd_mode : ℤ) (msg : ℤ × ℤ) (params : List ℤ) (p : ℤ),
      p ∈ params → (p < 0 ∨ p > 255) →
      _create_command_encoding_dosing_pump cmd_id cmd_mode msg params = none) ∧
    (∀ (mode : ℤ) (params : List ℤ) (st : ℕ × ℕ),
      0 ≤ mode → mode ≤ 255 → params.length + 2 ≤ 255 →
      encode_5b mode params st ≠ none) ∧
    (∀ (cmd mode : ℤ) (params : List ℤ) (st : ℕ × ℕ),
      0 ≤ cmd → cmd ≤ 255 → 0 ≤ mode → mode ≤ 255 → params.length + 5 ≤ 255 →
      protocol_encode cmd mode params st ≠ none) ∧
    (∀ ml : ℚ, split_ml_25_6 ml = none ↔
      (quantize1 ml < 2/10 ∨ quantize1 ml > 9999/10)) ∧
    (∀ ml : ℚ, ¬(quantize1 ml < 2/10 ∨ quantize1 ml > 9999/10) →
      ∃ hi lo : ℕ, split_ml_25_6 ml = some (hi, lo) ∧ hi ≤ 255 ∧ lo ≤ 255) := by
  refine ⟨?_, ?_, ?_, ?_, ?_⟩
  · intro cmd_id cmd_mode msg params p hp hbad
    unfold _create_command_encoding_dosing_pump
    cases hc : _clamp_byte cmd_id with
    | none => rfl
    | some c =>
    cases hm : _clamp_byte cmd_mode with
    | none => rfl
    | some m =>
    cases hmh : _clamp_byte msg.1 with
    | none => rfl
    | some mh =>
    cases hml : _clamp_byte msg.2 with
    | none => rfl
    | some ml =>
    rw [sanitize_dosing_bad hp hbad]
  · intro mode params st hm0 hm255 hlen
    have hl := (sanitize_protocol_spec params).1
    show (if mode < 0 ∨ mode > 255 ∨ (sanitize_params_protocol params).length + 2 > 255 then
        (none : Option (List ℕ × (ℕ × ℕ)))
      else some (protocol_loop 91 2 mode.toNat (sanitize_params_protocol params) 8 st)) ≠ none
    rw [if_neg (by push_neg; exact ⟨hm0, hm255, by omega⟩)]
    exact fun hcon => Option.noConfusion hcon
  · intro cmd mode params st hc0 hc255 hm0 hm255 hlen
    have hl := (sanitize_protocol_spec params).1
    show (if cmd < 0 ∨ cmd > 255 ∨ mode < 0 ∨ mode > 255 ∨
        (sanitize_params_protocol params).length + 5 > 255 then
        (none : Option (List ℕ × (ℕ × ℕ)))
      else some (protocol_loop cmd.toNat 5 mode.toNat (sanitize_params_protocol params) 8 st)) ≠
      none
    rw [if_neg (by push_neg; exact ⟨hc0, hc255, hm0, hm255, by omega⟩)]
    exact fun hcon => Option.noConfusion hcon
  · intro ml
    by_cases hc : (quantize1 ml < 2/10 ∨ quantize1 ml > 9999/10)
    · simp [split_ml_25_6, hc]
    · simp [split_ml_25_6, hc]
  · intro ml hc
    simp only [split_ml_25_6]
    rw [if_neg hc]
    exact ⟨_, _, rfl, emod_toNat_le _, emod_toNat_le _⟩

/-- **C8, witness.**  The dosing builder rejects parameter 300; both
protocol-module builders return normally for byte-ranged inputs; the
dose encoder accepts 39.6 mL (and 39.6 rounds inside [0.2, 999.9]). -/
theorem c8_invalid_parameter_rejection_witness :
    _create_command_encoding_dosing_pump 165 27 (0, 1) [300] = none ∧
    encode_5b 34 [2] (0, 0) ≠ none ∧
    protocol_encode 165 34 [2] (0, 0) ≠ none ∧
    ∃ hi lo : ℕ, split_ml_25_6 ((396 : ℚ) / 10) = some (hi, lo) ∧ hi ≤ 255 ∧ lo ≤ 255 :=
  ⟨c8_invalid_parameter_rejection.1 165 27 (0, 1) [300] 300 (by decide) (by decide),
   c8_invalid_parameter_rejection.2.1 34 [2] (0, 0) (by decide) (by decide) (by decide),
   c8_invalid_parameter_rejection.2.2.1 165 34 [2] (0, 0)
     (by decide) (by decide) (by decide) (by decide) (by decide),
   c8_invalid_parameter_rejection.2.2.2.2 ((396 : ℚ) / 10) (by
    rw [show quantize1 ((396 : ℚ) / 10) = (396 : ℚ) / 10 from by
      have h : ((396 : ℚ) / 10) = (((396 : ℤ) : ℚ) / 10) := by norm_num
      rw [h, quantize1_tenths]]
    norm_num)⟩

end Chihiros
